import Mathlib

/-!
PortAudio WAV player: decoder and playback callback.

A shallow embedding of the two players of the repository,

* `src/wav_player_cpp/wav_player_cpp.cpp` (namespace `WavPlayerCpp`), and
* `src/wav_player_example/wav_player.c` (namespace `WavPlayerExample`),

followed by the properties of their WAV header decoder (`loadWAV`) and of their
PortAudio stream callback (`audioCallback`).

Conventions of the embedding.

* A file is a list of bytes; a file that cannot be opened is `none`.
* `int16_t` samples are integers; a sample array (the `std::vector<int16_t>`, the
  `malloc`ed block, PortAudio's output block) is a `List Int`.
* `size_t` and `unsigned long` are naturals reduced modulo `2 ^ 64`; `int`, `long` are
  integers.  The host is little-endian with 64-bit `long` (LP64).
* A function returns `none` where the source has undefined behaviour: a read of the
  uninitialised part of the header, an integer division by zero, a signed overflow, a
  `memcpy`, `memset` or read that leaves its array.
* An allocation succeeds when its size is one the source can ask for with a header it
  accepts (at most `2 ^ 31` bytes, `malloc(0)` included); a size that comes from a
  negative `int` fails.
* Console output is not modelled.
-/

namespace Wav

/-- One `char` of a file. -/
abbrev Byte := Fin 256

/-- Conversion of an integer to `size_t` / `unsigned long` (64 bits). -/
def toSizeT (i : Int) : Nat := (i % 2 ^ 64).toNat

/-- Conversion of an integer to `long` (64 bits, two's complement). -/
def toLong (i : Int) : Int :=
  if i % 2 ^ 64 < 2 ^ 63 then i % 2 ^ 64 else i % 2 ^ 64 - 2 ^ 64

/-- The `int16_t` with the given 16-bit pattern. -/
def toInt16 (v : Nat) : Int :=
  if v % 2 ^ 16 < 2 ^ 15 then (v % 2 ^ 16 : Nat) else ((v % 2 ^ 16 : Nat) : Int) - 2 ^ 16

/-- The `int32_t` with the given 32-bit pattern. -/
def toInt32 (v : Nat) : Int :=
  if v % 2 ^ 32 < 2 ^ 31 then (v % 2 ^ 32 : Nat) else ((v % 2 ^ 32 : Nat) : Int) - 2 ^ 32

/-- Byte `i` of an array, as a number. -/
def byteAt (bs : List Byte) (i : Nat) : Nat := (bs.getD i 0).val

/-- The 16-bit pattern stored at `header + off` (little-endian host). -/
def bits16 (header : List Byte) (off : Nat) : Nat :=
  byteAt header off + 2 ^ 8 * byteAt header (off + 1)

/-- The 32-bit pattern stored at `header + off` (little-endian host). -/
def bits32 (header : List Byte) (off : Nat) : Nat :=
  byteAt header off + 2 ^ 8 * byteAt header (off + 1) + 2 ^ 16 * byteAt header (off + 2)
    + 2 ^ 24 * byteAt header (off + 3)

/-- The string literal `"RIFF"`. -/
def RIFF : List Byte := [82, 73, 70, 70]

/-- The string literal `"WAVE"`. -/
def WAVE : List Byte := [87, 65, 86, 69]

/-- The C library `strncmp(s1, s2, n)`: compares at most `n` characters as unsigned
chars and stops after a common NUL.  The end of a list reads as the terminating NUL of a
string literal. -/
def strncmp : List Byte → List Byte → Nat → Int
  | _, _, 0 => 0
  | s1, s2, n + 1 =>
    let c1 := s1.headD 0
    let c2 := s2.headD 0
    if c1 ≠ c2 then (c1.val : Int) - (c2.val : Int)
    else if c1 = 0 then 0
    else strncmp s1.tail s2.tail n

/-- The two bytes of an `int16_t` in memory (little-endian host). -/
def sampleBytes (s : Int) : List Byte :=
  [Fin.ofNat ((s % 2 ^ 16).toNat % 2 ^ 8), Fin.ofNat ((s % 2 ^ 16).toNat / 2 ^ 8)]

/-- The storage of an `int16_t` array, byte by byte. -/
def storageOf : List Int → List Byte
  | [] => []
  | s :: rest => sampleBytes s ++ storageOf rest

/-- The `int16_t` values held by a block of bytes; an odd trailing byte holds no sample. -/
def samplesOf : List Byte → List Int
  | b0 :: b1 :: rest => toInt16 (b0.val + 2 ^ 8 * b1.val) :: samplesOf rest
  | _ => []

/-- Reading `data` into the start of a block of storage (`istream::read`, `fread`):
`none` when the data does not fit in the block. -/
def readInto (storage data : List Byte) : Option (List Byte) :=
  if data.length ≤ storage.length then some (data ++ storage.drop data.length) else none

/-- The C library `memcpy(&dst[dstOff], &src[srcOff], nbytes)` between `int16_t` arrays:
`none` when either range leaves its array. -/
def memcpy (dst : List Int) (dstOff : Nat) (src : List Int) (srcOff : Nat) (nbytes : Nat) :
    Option (List Int) :=
  if srcOff + nbytes / 2 ≤ src.length ∧ dstOff + nbytes / 2 ≤ dst.length then
    some (dst.take dstOff ++ (src.drop srcOff).take (nbytes / 2) ++ dst.drop (dstOff + nbytes / 2))
  else none

/-- The C library `memset(&dst[dstOff], 0, nbytes)` on an `int16_t` array: `none` when
the range leaves the array. -/
def memset (dst : List Int) (dstOff : Nat) (nbytes : Nat) : Option (List Int) :=
  if dstOff + nbytes / 2 ≤ dst.length then
    some (dst.take dstOff ++ List.replicate (nbytes / 2) 0 ++ dst.drop (dstOff + nbytes / 2))
  else none

/-- An `int16_t` array that lies in the 64-bit address space. -/
def InMemory (xs : List Int) : Prop := xs.length * 2 < 2 ^ 64

/-- The output block PortAudio hands to a tick on a stream of `channels` channels:
`framesPerBuffer` (an `unsigned long`) frames of `channels` samples each. -/
def OutputBlock (channels : Int) (framesPerBuffer : Nat) (output : List Int) : Prop :=
  framesPerBuffer < 2 ^ 64 ∧ (output.length : Int) = framesPerBuffer * channels ∧ InMemory output

instance (xs : List Int) : Decidable (InMemory xs) := by
  unfold InMemory; infer_instance

instance (channels : Int) (framesPerBuffer : Nat) (output : List Int) :
    Decidable (OutputBlock channels framesPerBuffer output) := by
  unfold OutputBlock; infer_instance

/-- Writes the 16-bit value `v` little-endian at offset `off` of a header. -/
def putLE16 (header : List Byte) (off v : Nat) : List Byte :=
  (header.set off (Fin.ofNat (v % 2 ^ 8))).set (off + 1) (Fin.ofNat (v / 2 ^ 8 % 2 ^ 8))

/-- Writes the 32-bit value `v` little-endian at offset `off` of a header. -/
def putLE32 (header : List Byte) (off v : Nat) : List Byte :=
  (((header.set off (Fin.ofNat (v % 2 ^ 8))).set (off + 1) (Fin.ofNat (v / 2 ^ 8 % 2 ^ 8))).set
    (off + 2) (Fin.ofNat (v / 2 ^ 16 % 2 ^ 8))).set (off + 3) (Fin.ofNat (v / 2 ^ 24 % 2 ^ 8))

/-- The encoder of the round-trip test, after the file-format table of the
specification: the header `base` with the channel count written at offset 22 (16 bits),
the sample rate at offset 24 (32 bits), the bits per sample at offset 34 (16 bits) and
the data size at offset 40 (32 bits), all little-endian unsigned. -/
def specEncodeFields (base : List Byte) (channelCount sampleRate bitsPerSample dataSize : Nat) :
    List Byte :=
  putLE32 (putLE16 (putLE32 (putLE16 base 22 channelCount) 24 sampleRate) 34 bitsPerSample)
    40 dataSize

/-- A header of 44 bytes that carries the two tags and zeros elsewhere. -/
def blankHeader : List Byte :=
  RIFF ++ List.replicate 4 0 ++ WAVE ++ List.replicate 32 0

/-- A file of three stereo frames: 2 channels, 44100 Hz, 16 bits, 12 bytes of data. -/
def stereoFile : List Byte :=
  specEncodeFields blankHeader 2 44100 16 12 ++ [1, 0, 2, 0, 3, 0, 4, 0, 5, 0, 6, 0]

/-- A stereo file whose data ends in the middle of a frame: 6 bytes of data, three
samples. -/
def halfFrameFile : List Byte :=
  specEncodeFields blankHeader 2 44100 16 6 ++ [1, 0, 2, 0, 3, 0]

/-- A file whose channel count field holds `0xFFFF`, with 8 bytes of data. -/
def manyChannelsFile : List Byte :=
  specEncodeFields blankHeader 65535 44100 16 8 ++ [1, 0, 2, 0, 3, 0, 4, 0]

/-- A mono file of 8-bit samples. -/
def eightBitFile : List Byte :=
  specEncodeFields blankHeader 1 8000 8 4 ++ [1, 2, 3, 4]

/-- A file with the tag `"RIFX"` at offset 0, 16 bits per sample and a channel count of
zero. -/
def rifxFile : List Byte :=
  (specEncodeFields blankHeader 0 44100 16 12 ++ [1, 0, 2, 0, 3, 0, 4, 0, 5, 0, 6, 0]).set 3 88

/-- The values a PortAudio stream callback returns (`portaudio.h`). -/
inductive PaStreamCallbackResult where
  | paContinue
  | paComplete
  deriving DecidableEq

/-- The ways `loadWAV` ends.  The source reports every failure as `false` (C++) or `-1`
(C); the constructors name the failing statement after the error it stands for:
`IoFailure` the file that does not open, `InvalidContainer` the `RIFF`/`WAVE` tag test,
`UnsupportedBitDepth` the `bitsPerSample != 16` test, `AllocationFailure` the
`std::length_error` of `resize` (C++) or the null `malloc` (C), `Loaded` the success. -/
inductive LoadResult where
  | IoFailure
  | InvalidContainer
  | UnsupportedBitDepth (bitsPerSample : Int)
  | AllocationFailure
  | Loaded
  deriving DecidableEq

end Wav

namespace WavPlayerCpp
open Wav

/-- The `AudioData` of `WAVPlayer`. -/
structure AudioData where
  samples : List Int
  totalFrames : Nat
  currentFrame : Nat
  channels : Int
  sampleRate : Nat
  deriving DecidableEq

/-- The state the callback works on: the player's `audioData` and the callback's
`static size_t lastReported`. -/
structure WAVPlayer where
  audioData : AudioData
  lastReported : Nat
  deriving DecidableEq

/-- The four header fields `loadWAV` reads (lines 128-131): `audioData->channels`,
`audioData->sampleRate` and the locals `bitsPerSample`, `dataSize`. -/
structure HeaderFields where
  channels : Int
  sampleRate : Nat
  bitsPerSample : Int
  dataSize : Int
  deriving DecidableEq

/-- The reads `*reinterpret_cast<int16_t*>(header + 22)`,
`static_cast<unsigned int>(*reinterpret_cast<int32_t*>(header + 24))`,
`*reinterpret_cast<int16_t*>(header + 34)` and `*reinterpret_cast<int32_t*>(header + 40)`. -/
def headerFields (header : List Byte) : HeaderFields :=
  { channels := toInt16 (bits16 header 22)
    sampleRate := (toInt32 (bits32 header 24) % 2 ^ 32).toNat
    bitsPerSample := toInt16 (bits16 header 34)
    dataSize := toInt32 (bits32 header 40) }

/-- `WAVPlayer::loadWAV`.  `file` is the content of the file, `none` when it does not
open. -/
def loadWAV (audioData : AudioData) (file : Option (List Byte)) :
    Option (LoadResult × AudioData) :=
  match file with
  | none => some (.IoFailure, audioData)
  | some bytes =>
    -- `file.read(header, 44)`: a shorter file leaves part of `header` uninitialised
    if bytes.length < 44 then none
    else
      let header := bytes.take 44
      if strncmp header RIFF 4 ≠ 0 ∨ strncmp (header.drop 8) WAVE 4 ≠ 0 then
        some (.InvalidContainer, audioData)
      else
        let fields := headerFields header
        let bitsPerSample := fields.bitsPerSample
        let dataSize := fields.dataSize
        let a1 := { audioData with channels := fields.channels, sampleRate := fields.sampleRate }
        if bitsPerSample ≠ 16 then some (.UnsupportedBitDepth bitsPerSample, a1)
        -- `dataSize / (audioData->channels * 2)`: division by zero
        else if a1.channels * 2 = 0 then none
        else
          let a2 := { a1 with totalFrames := toSizeT (Int.tdiv dataSize (a1.channels * 2)),
                              currentFrame := 0 }
          -- `samples.resize(dataSize / 2)`: a negative count converts to a size above
          -- `max_size()` and throws
          if Int.tdiv dataSize 2 < 0 then some (.AllocationFailure, a2)
          else
            let count := (Int.tdiv dataSize 2).toNat
            let resized := a2.samples.take count ++ List.replicate (count - a2.samples.length) 0
            -- `file.read(samples.data(), dataSize)` stores the bytes the file still has
            match readInto (storageOf resized) ((bytes.drop 44).take dataSize.toNat) with
            | none => none
            | some storage => some (.Loaded, { a2 with samples := samplesOf storage })

/-- `WAVPlayer::audioCallback`: one tick.  `output` is the output block as PortAudio
hands it over; the result holds the value returned, the state and the block afterwards. -/
def audioCallback (player : WAVPlayer) (output : List Int) (framesPerBuffer : Nat) :
    Option (PaStreamCallbackResult × WAVPlayer × List Int) :=
  let audioData := player.audioData
  let channels : Nat := toSizeT audioData.channels
  let framesRemaining : Nat := toSizeT ((audioData.totalFrames : Int) - audioData.currentFrame)
  let framesToCopy : Nat := min framesPerBuffer framesRemaining
  if framesToCopy > 0 then
    let samplesToCopy : Nat := framesToCopy * channels % 2 ^ 64
    match memcpy output 0 audioData.samples (audioData.currentFrame * channels % 2 ^ 64)
        (samplesToCopy * 2 % 2 ^ 64) with
    | none => none
    | some copied =>
      let currentFrame : Nat := (audioData.currentFrame + framesToCopy) % 2 ^ 64
      let padded :=
        if framesToCopy < framesPerBuffer then
          let silenceSamples : Nat := (framesPerBuffer - framesToCopy) * channels % 2 ^ 64
          memset copied samplesToCopy (silenceSamples * 2 % 2 ^ 64)
        else some copied
      match padded with
      | none => none
      | some block =>
        let lastReported : Nat :=
          if toSizeT ((currentFrame : Int) - player.lastReported) > audioData.sampleRate then
            currentFrame
          else player.lastReported
        some (.paContinue,
          { audioData := { audioData with currentFrame := currentFrame },
            lastReported := lastReported }, block)
  else
    match memset output 0 (framesPerBuffer * channels % 2 ^ 64 * 2 % 2 ^ 64) with
    | none => none
    | some block => some (.paComplete, player, block)

/-- The stream: PortAudio calls the callback once for every tick of the list, in order,
each tick with its requested frame count and its output block.  The result is the final
state and, tick by tick, what the callback produced: the value returned, the state and the
block. -/
def runTicks (player : WAVPlayer) :
    List (Nat × List Int) →
      Option (WAVPlayer × List (PaStreamCallbackResult × WAVPlayer × List Int))
  | [] => some (player, [])
  | (framesPerBuffer, output) :: rest =>
    match audioCallback player output framesPerBuffer with
    | none => none
    | some (result, next, block) =>
      match runTicks next rest with
      | none => none
      | some (final, trace) => some (final, (result, next, block) :: trace)

/-- The frames each tick of a trace copied: the advance `currentFrame += framesToCopy` of
the cursor, tick by tick, from the state `start` on. -/
def framesCopied (start : WAVPlayer) :
    List (PaStreamCallbackResult × WAVPlayer × List Int) → List Nat
  | [] => []
  | (_, next, _) :: rest =>
    (next.audioData.currentFrame - start.audioData.currentFrame) :: framesCopied next rest

/-- The samples the ticks of a trace copied, in order: of each block, the samples of the
frames the tick copied. -/
def samplesCopied (start : WAVPlayer) :
    List (PaStreamCallbackResult × WAVPlayer × List Int) → List Int
  | [] => []
  | (_, next, block) :: rest =>
    block.take ((next.audioData.currentFrame - start.audioData.currentFrame)
        * start.audioData.channels.toNat)
      ++ samplesCopied next rest

/-- A stereo player at the start of three frames of audio (the buffer holds a seventh
sample). -/
def stereo : WAVPlayer :=
  { audioData := { samples := [1, 2, 3, 4, 5, 6, 7], totalFrames := 3, currentFrame := 0,
                   channels := 2, sampleRate := 44100 },
    lastReported := 0 }

/-- The stereo player once its three frames are played. -/
def stereoDrained : WAVPlayer :=
  { stereo with audioData := { stereo.audioData with currentFrame := 3 } }

/-- The `AudioData` of a player before anything is loaded (the constructor's values). -/
def unloaded : AudioData :=
  { samples := [], totalFrames := 0, currentFrame := 0, channels := 0, sampleRate := 0 }

/-- The `AudioData` the three-frame stereo file decodes to. -/
def stereoLoaded : AudioData :=
  { samples := [1, 2, 3, 4, 5, 6], totalFrames := 3, currentFrame := 0, channels := 2,
    sampleRate := 44100 }

end WavPlayerCpp

namespace WavPlayerExample
open Wav

/-- The `AudioData` of the C player; `samples` is the block the pointer refers to. -/
structure AudioData where
  samples : List Int
  totalFrames : Int
  currentFrame : Int
  channels : Int
  sampleRate : Int
  deriving DecidableEq

/-- A value of type `long`: `none` for a result outside the type (signed overflow). -/
def long (i : Int) : Option Int :=
  if -2 ^ 63 ≤ i ∧ i < 2 ^ 63 then some i else none

/-- The four header fields `loadWAV` reads (lines 31-34): `audioData->channels`,
`audioData->sampleRate` and the locals `bitsPerSample`, `dataSize`. -/
structure HeaderFields where
  channels : Int
  sampleRate : Int
  bitsPerSample : Int
  dataSize : Int
  deriving DecidableEq

/-- The reads `*(int16_t*)(header + 22)`, `*(int32_t*)(header + 24)`,
`*(int16_t*)(header + 34)` and `*(int32_t*)(header + 40)`. -/
def headerFields (header : List Byte) : HeaderFields :=
  { channels := toInt16 (bits16 header 22)
    sampleRate := toInt32 (bits32 header 24)
    bitsPerSample := toInt16 (bits16 header 34)
    dataSize := toInt32 (bits32 header 40) }

/-- The C `loadWAV`.  `file` is the content of the file, `none` when it does not open;
`fresh i` is the indeterminate byte `i` of the block `malloc` returns. -/
def loadWAV (audioData : AudioData) (file : Option (List Byte)) (fresh : Nat → Byte) :
    Option (LoadResult × AudioData) :=
  match file with
  | none => some (.IoFailure, audioData)
  | some bytes =>
    -- `fread(header, 1, 44, file)`: a shorter file leaves part of `header` uninitialised
    if bytes.length < 44 then none
    else
      let header := bytes.take 44
      if strncmp header RIFF 4 ≠ 0 ∨ strncmp (header.drop 8) WAVE 4 ≠ 0 then
        some (.InvalidContainer, audioData)
      else
        let fields := headerFields header
        let bitsPerSample := fields.bitsPerSample
        let dataSize := fields.dataSize
        let a1 := { audioData with channels := fields.channels, sampleRate := fields.sampleRate }
        if bitsPerSample ≠ 16 then some (.UnsupportedBitDepth bitsPerSample, a1)
        -- `dataSize / (audioData->channels * 2)`: division by zero
        else if a1.channels * 2 = 0 then none
        else
          let a2 := { a1 with totalFrames := Int.tdiv dataSize (a1.channels * 2),
                              currentFrame := 0 }
          -- `malloc(dataSize)`: a negative size converts to a `size_t` of at least
          -- `2 ^ 63`, which no allocation satisfies; `samples` becomes the null pointer
          if dataSize < 0 then some (.AllocationFailure, { a2 with samples := [] })
          else
            let storage := (List.range dataSize.toNat).map fresh
            -- `fread(samples, 1, dataSize, file)` stores the bytes the file still has
            match readInto storage ((bytes.drop 44).take dataSize.toNat) with
            | none => none
            | some storage => some (.Loaded, { a2 with samples := samplesOf storage })

/-- The element offset of `&array[i]` for an index of type `long`: `none` for a negative
index, which points before the array. -/
def elementAt (i : Int) : Option Nat :=
  if 0 ≤ i then some i.toNat else none

/-- The C `audioCallback`: one tick.  `output` is the output block as PortAudio hands it
over; the result holds the value returned, the state and the block afterwards. -/
def audioCallback (audioData : AudioData) (output : List Int) (framesPerBuffer : Nat) :
    Option (PaStreamCallbackResult × AudioData × List Int) :=
  (long (audioData.totalFrames - audioData.currentFrame)).bind fun framesRemaining =>
  -- the comparison and the conditional are done in `unsigned long`
  let chosen : Nat :=
    if toSizeT framesRemaining < framesPerBuffer then toSizeT framesRemaining
    else framesPerBuffer
  let framesToCopy : Int := toLong chosen
  if framesToCopy > 0 then
    (long (audioData.currentFrame * audioData.channels)).bind fun start =>
    (long (framesToCopy * audioData.channels)).bind fun count =>
    (elementAt start).bind fun srcOff =>
    (memcpy output 0 audioData.samples srcOff (toSizeT count * 2 % 2 ^ 64)).bind fun copied =>
    (long (audioData.currentFrame + framesToCopy)).bind fun currentFrame =>
    (if toSizeT framesToCopy < framesPerBuffer then
      (elementAt count).bind fun dstOff =>
        memset copied dstOff
          (toSizeT ((framesPerBuffer : Int) - toSizeT framesToCopy)
            * toSizeT audioData.channels % 2 ^ 64 * 2 % 2 ^ 64)
    else some copied).bind fun block =>
    some (.paContinue, { audioData with currentFrame := currentFrame }, block)
  else
    (memset output 0
      (framesPerBuffer * toSizeT audioData.channels % 2 ^ 64 * 2 % 2 ^ 64)).bind fun block =>
    some (.paComplete, audioData, block)

/-- The stream: PortAudio calls the callback once for every tick of the list, in order,
each tick with its requested frame count and its output block.  The result is the final
state and, tick by tick, what the callback produced: the value returned, the state and the
block. -/
def runTicks (audioData : AudioData) :
    List (Nat × List Int) →
      Option (AudioData × List (PaStreamCallbackResult × AudioData × List Int))
  | [] => some (audioData, [])
  | (framesPerBuffer, output) :: rest =>
    match audioCallback audioData output framesPerBuffer with
    | none => none
    | some (result, next, block) =>
      match runTicks next rest with
      | none => none
      | some (final, trace) => some (final, (result, next, block) :: trace)

/-- The frames each tick of a trace copied: the advance `currentFrame += framesToCopy` of
the cursor, tick by tick, from the state `start` on. -/
def framesCopied (start : AudioData) :
    List (PaStreamCallbackResult × AudioData × List Int) → List Int
  | [] => []
  | (_, next, _) :: rest => (next.currentFrame - start.currentFrame) :: framesCopied next rest

/-- The samples the ticks of a trace copied, in order: of each block, the samples of the
frames the tick copied. -/
def samplesCopied (start : AudioData) :
    List (PaStreamCallbackResult × AudioData × List Int) → List Int
  | [] => []
  | (_, next, block) :: rest =>
    block.take ((next.currentFrame - start.currentFrame) * start.channels).toNat
      ++ samplesCopied next rest

/-- Three stereo frames of audio at the start of playback (the buffer holds a seventh
sample). -/
def stereo : AudioData :=
  { samples := [1, 2, 3, 4, 5, 6, 7], totalFrames := 3, currentFrame := 0, channels := 2,
    sampleRate := 44100 }

/-- The stereo audio once its three frames are played. -/
def stereoDrained : AudioData := { stereo with currentFrame := 3 }

/-- An `AudioData` before anything is loaded. -/
def unloaded : AudioData :=
  { samples := [], totalFrames := 0, currentFrame := 0, channels := 0, sampleRate := 0 }

/-- The `AudioData` the three-frame stereo file decodes to. -/
def stereoLoaded : AudioData :=
  { samples := [1, 2, 3, 4, 5, 6], totalFrames := 3, currentFrame := 0, channels := 2,
    sampleRate := 44100 }

end WavPlayerExample

/-! Lemmas on the embedding. -/

namespace Wav

theorem toSizeT_natCast (n : Nat) (h : n < 2 ^ 64) : toSizeT (n : Int) = n := by
  unfold toSizeT; omega

theorem toSizeT_natCast_sub (a b : Nat) (h : b ≤ a) (ha : a < 2 ^ 64) :
    toSizeT ((a : Int) - (b : Int)) = a - b := by
  unfold toSizeT; omega

theorem toLong_natCast (n : Nat) (h : n < 2 ^ 63) : toLong (n : Int) = n := by
  unfold toLong; split <;> omega

theorem memcpy_front (dst src : List Int) (off n : Nat) (hs : off + n ≤ src.length)
    (hd : n ≤ dst.length) :
    memcpy dst 0 src off (n * 2) = some ((src.drop off).take n ++ dst.drop n) := by
  have h2 : n * 2 / 2 = n := by omega
  simp [memcpy, h2, hs, hd]

theorem memset_tail (dst : List Int) (off n : Nat) (h : off + n = dst.length) :
    memset dst off (n * 2) = some (dst.take off ++ List.replicate n 0) := by
  have h2 : n * 2 / 2 = n := by omega
  simp [memset, h2, h]

theorem memset_zero_bytes (dst : List Int) (off : Nat) (h : off ≤ dst.length) :
    memset dst off 0 = some dst := by
  simp [memset, h]

theorem strncmp_step (s1 s2 : List Byte) (n : Nat) :
    strncmp s1 s2 (n + 1) =
      if s1.headD 0 ≠ s2.headD 0 then ((s1.headD 0).val : Int) - ((s2.headD 0).val : Int)
      else if s1.headD 0 = 0 then 0
      else strncmp s1.tail s2.tail n := by
  rw [strncmp]

theorem byte_sub_ne_zero (a b : Byte) (h : a ≠ b) : ((a.val : Int) - (b.val : Int)) ≠ 0 := by
  intro h0
  apply h
  apply Fin.ext
  omega

theorem strncmp_cons (a b : Byte) (s1 s2 : List Byte) (n : Nat) (hb : b ≠ 0) :
    strncmp (a :: s1) (b :: s2) (n + 1) = 0 ↔ a = b ∧ strncmp s1 s2 n = 0 := by
  rw [strncmp_step]
  simp only [List.headD_cons, List.tail_cons]
  by_cases hab : a = b
  · subst hab
    simp only [ne_eq, not_true_eq_false, if_false, if_neg hb, true_and]
  · simp only [ne_eq, hab, not_false_eq_true, if_true, false_and, iff_false]
    exact byte_sub_ne_zero a b hab

theorem strncmp_RIFF (s : List Byte) (h : 4 ≤ s.length) :
    strncmp s RIFF 4 = 0 ↔ s.take 4 = RIFF := by
  match s, h with
  | a :: b :: c :: d :: rest, _ =>
    simp only [RIFF]
    rw [strncmp_cons _ _ _ _ _ (by decide), strncmp_cons _ _ _ _ _ (by decide),
      strncmp_cons _ _ _ _ _ (by decide), strncmp_cons _ _ _ _ _ (by decide)]
    simp [strncmp]

theorem strncmp_WAVE (s : List Byte) (h : 4 ≤ s.length) :
    strncmp s WAVE 4 = 0 ↔ s.take 4 = WAVE := by
  match s, h with
  | a :: b :: c :: d :: rest, _ =>
    simp only [WAVE]
    rw [strncmp_cons _ _ _ _ _ (by decide), strncmp_cons _ _ _ _ _ (by decide),
      strncmp_cons _ _ _ _ _ (by decide), strncmp_cons _ _ _ _ _ (by decide)]
    simp [strncmp]

/-- The tag test of `loadWAV` on a header of 44 bytes. -/
theorem tags_iff (bytes : List Byte) (h : 44 ≤ bytes.length) :
    (strncmp (bytes.take 44) RIFF 4 ≠ 0 ∨ strncmp ((bytes.take 44).drop 8) WAVE 4 ≠ 0)
      ↔ (bytes.take 4 ≠ RIFF ∨ (bytes.drop 8).take 4 ≠ WAVE) := by
  have h1 : 4 ≤ (bytes.take 44).length := by rw [List.length_take]; omega
  have h2 : 4 ≤ ((bytes.take 44).drop 8).length := by
    rw [List.length_drop, List.length_take]; omega
  have e1 : (bytes.take 44).take 4 = bytes.take 4 := by
    rw [List.take_take]; congr 1
  have e2 : ((bytes.take 44).drop 8).take 4 = (bytes.drop 8).take 4 := by
    rw [List.drop_take, List.take_take]; congr 1
  rw [Ne, Ne, strncmp_RIFF _ h1, strncmp_WAVE _ h2, e1, e2]

theorem byteAt_take (bs : List Byte) (n i : Nat) (h : i < n) :
    byteAt (bs.take n) i = byteAt bs i := by
  unfold byteAt
  rw [List.getD_eq_getElem?_getD, List.getD_eq_getElem?_getD, List.getElem?_take_of_lt h]

theorem byteAt_lt (bs : List Byte) (i : Nat) : byteAt bs i < 256 := (bs.getD i 0).isLt

theorem bits16_lt (bs : List Byte) (off : Nat) : bits16 bs off < 2 ^ 16 := by
  have h0 := byteAt_lt bs off
  have h1 := byteAt_lt bs (off + 1)
  unfold bits16; omega

theorem toInt16_range (v : Nat) : -2 ^ 15 ≤ toInt16 v ∧ toInt16 v < 2 ^ 15 := by
  unfold toInt16; split <;> omega

theorem toInt32_range (v : Nat) : -2 ^ 31 ≤ toInt32 v ∧ toInt32 v < 2 ^ 31 := by
  unfold toInt32; split <;> omega

theorem toInt16_eq_16 (v : Nat) (h : v < 2 ^ 16) : toInt16 v = 16 ↔ v = 16 := by
  unfold toInt16; split <;> omega

theorem length_storageOf (xs : List Int) : (storageOf xs).length = 2 * xs.length := by
  induction xs with
  | nil => rfl
  | cons x rest ih =>
    rw [storageOf, List.length_append, ih, List.length_cons]
    simp only [sampleBytes, List.length_cons, List.length_nil]
    omega

theorem length_samplesOf : ∀ (n : Nat) (bs : List Byte), bs.length ≤ n →
    (samplesOf bs).length = bs.length / 2 := by
  intro n
  induction n using Nat.strong_induction_on with
  | _ n ih =>
    intro bs hn
    match bs with
    | [] => rfl
    | [_] => simp [samplesOf]
    | b0 :: b1 :: rest =>
      rw [samplesOf, List.length_cons, ih (n - 2) (by simp at hn; omega) rest
        (by simp at hn; omega)]
      simp only [List.length_cons]
      omega

theorem length_readInto (storage data out : List Byte) (h : readInto storage data = some out) :
    out.length = storage.length := by
  unfold readInto at h
  split at h
  · simp only [Option.some.injEq] at h
    rw [← h, List.length_append, List.length_drop]; omega
  · exact absurd h (by simp)

theorem byteAt_set (l : List Byte) (i j : Nat) (x : Byte) :
    byteAt (l.set i x) j = if i = j ∧ i < l.length then x.val else byteAt l j := by
  unfold byteAt
  rw [List.getD_eq_getElem?_getD, List.getD_eq_getElem?_getD, List.getElem?_set]
  by_cases hij : i = j
  · subst hij
    by_cases hlt : i < l.length
    · simp [hlt]
    · simp [hlt, List.getElem?_eq_none (Nat.le_of_not_lt hlt)]
  · simp [hij]

theorem byte_ofNat_val (v : Nat) : ((Fin.ofNat v : Byte)).val = v % 256 := rfl

theorem length_putLE16 (l : List Byte) (off v : Nat) : (putLE16 l off v).length = l.length := by
  simp [putLE16]

theorem length_putLE32 (l : List Byte) (off v : Nat) : (putLE32 l off v).length = l.length := by
  simp [putLE32]

theorem byteAt_putLE16 (l : List Byte) (off v j : Nat) (h : off + 1 < l.length) :
    byteAt (putLE16 l off v) j =
      if j = off then v % 2 ^ 8 else if j = off + 1 then v / 2 ^ 8 % 2 ^ 8 else byteAt l j := by
  unfold putLE16
  rw [byteAt_set, byteAt_set, List.length_set, byte_ofNat_val, byte_ofNat_val]
  by_cases h0 : j = off
  · subst h0; simp; omega
  · by_cases h1 : j = off + 1
    · subst h1; simp [h]
    · have e0 : ¬ (off = j ∧ off < l.length) := fun hh => h0 hh.1.symm
      have e1 : ¬ (off + 1 = j ∧ off + 1 < l.length) := fun hh => h1 hh.1.symm
      rw [if_neg e1, if_neg e0, if_neg h0, if_neg h1]

theorem byteAt_putLE32 (l : List Byte) (off v j : Nat) (h : off + 3 < l.length) :
    byteAt (putLE32 l off v) j =
      if j = off then v % 2 ^ 8 else if j = off + 1 then v / 2 ^ 8 % 2 ^ 8
      else if j = off + 2 then v / 2 ^ 16 % 2 ^ 8
      else if j = off + 3 then v / 2 ^ 24 % 2 ^ 8 else byteAt l j := by
  unfold putLE32
  rw [byteAt_set, byteAt_set, byteAt_set, byteAt_set, List.length_set, List.length_set,
    List.length_set, byte_ofNat_val, byte_ofNat_val, byte_ofNat_val, byte_ofNat_val]
  by_cases h0 : j = off
  · subst h0; simp; omega
  · by_cases h1 : j = off + 1
    · subst h1; simp; omega
    · by_cases h2 : j = off + 2
      · subst h2; simp; omega
      · by_cases h3 : j = off + 3
        · subst h3; simp [h]
        · have e0 : ¬ (off = j ∧ off < l.length) := fun hh => h0 hh.1.symm
          have e1 : ¬ (off + 1 = j ∧ off + 1 < l.length) := fun hh => h1 hh.1.symm
          have e2 : ¬ (off + 2 = j ∧ off + 2 < l.length) := fun hh => h2 hh.1.symm
          have e3 : ¬ (off + 3 = j ∧ off + 3 < l.length) := fun hh => h3 hh.1.symm
          rw [if_neg e3, if_neg e2, if_neg e1, if_neg e0, if_neg h0, if_neg h1, if_neg h2,
            if_neg h3]

/-- The four bit patterns the fixed offsets of an encoded header hold. -/
theorem bits_specEncodeFields (base : List Byte) (c r b d : Nat) (hlen : base.length = 44)
    (hc : c < 2 ^ 16) (hr : r < 2 ^ 32) (hb : b < 2 ^ 16) (hd : d < 2 ^ 32) :
    bits16 (specEncodeFields base c r b d) 22 = c
      ∧ bits32 (specEncodeFields base c r b d) 24 = r
      ∧ bits16 (specEncodeFields base c r b d) 34 = b
      ∧ bits32 (specEncodeFields base c r b d) 40 = d := by
  have l1 : (putLE16 base 22 c).length = 44 := by rw [length_putLE16, hlen]
  have l2 : (putLE32 (putLE16 base 22 c) 24 r).length = 44 := by rw [length_putLE32, l1]
  have l3 : (putLE16 (putLE32 (putLE16 base 22 c) 24 r) 34 b).length = 44 := by
    rw [length_putLE16, l2]
  have s1 := fun j => byteAt_putLE16 base 22 c j (by omega)
  have s2 := fun j => byteAt_putLE32 (putLE16 base 22 c) 24 r j (by omega)
  have s3 := fun j => byteAt_putLE16 (putLE32 (putLE16 base 22 c) 24 r) 34 b j (by omega)
  have s4 := fun j =>
    byteAt_putLE32 (putLE16 (putLE32 (putLE16 base 22 c) 24 r) 34 b) 40 d j (by omega)
  unfold specEncodeFields bits16 bits32
  simp only [s4, s3, s2, s1]
  simp only [Nat.reduceAdd, Nat.reduceEqDiff, if_true, if_false]
  refine ⟨?_, ?_, ?_, ?_⟩ <;> omega

theorem tdiv_frames (d c : Int) (hc : 1 ≤ c) (hd : 0 ≤ Int.tdiv d 2) :
    ∃ n k : Nat, Int.tdiv d 2 = n ∧ c = k ∧ 1 ≤ k ∧ n ≤ d.toNat
      ∧ Int.tdiv d (c * 2) = ((n / k : Nat) : Int) := by
  obtain ⟨k, hk⟩ := Int.eq_ofNat_of_zero_le (show 0 ≤ c by omega)
  subst hk
  have hk1 : 1 ≤ k := by omega
  by_cases h0 : 0 ≤ d
  · obtain ⟨m, hm⟩ := Int.eq_ofNat_of_zero_le h0
    subst hm
    refine ⟨m / 2, k, ?_, rfl, hk1, ?_, ?_⟩
    · exact (Int.ofNat_tdiv m 2).symm
    · rw [Int.toNat_ofNat]; exact Nat.div_le_self m 2
    · have h2 : ((k : Int) * 2) = ((k * 2 : Nat) : Int) := by push_cast; rfl
      rw [h2, ← Int.ofNat_tdiv, Nat.div_div_eq_div_mul, Nat.mul_comm 2 k]
  · obtain ⟨m, hm⟩ := Int.eq_ofNat_of_zero_le (show 0 ≤ -d by omega)
    have hd' : d = -(m : Int) := by omega
    subst hd'
    have hmpos : 1 ≤ m := by omega
    rw [Int.neg_tdiv, ← Int.ofNat_two, ← Int.ofNat_tdiv] at hd
    have hm2 : m / 2 = 0 := by omega
    have hm1 : m = 1 := by omega
    subst hm1
    refine ⟨0, k, ?_, rfl, hk1, Nat.zero_le _, ?_⟩
    · rw [Int.neg_tdiv, ← Int.ofNat_two, ← Int.ofNat_tdiv]; rfl
    · have h2 : ((k : Int) * 2) = ((k * 2 : Nat) : Int) := by push_cast; rfl
      rw [Int.neg_tdiv, h2, ← Int.ofNat_tdiv, Nat.zero_div]
      have : 1 / (k * 2) = 0 := Nat.div_eq_of_lt (by omega)
      rw [this]; rfl

theorem natAbs_tdiv_le (a b : Int) : (Int.tdiv a b).natAbs ≤ a.natAbs := by
  rw [Int.natAbs_tdiv]; exact Nat.div_le_self _ _

theorem toSizeT_lt (i : Int) : toSizeT i < 2 ^ 64 := by
  unfold toSizeT; omega

theorem toInt32_mod (v : Nat) (h : v < 2 ^ 32) : (toInt32 v % 2 ^ 32).toNat = v := by
  unfold toInt32; split <;> omega

theorem toInt16_small (v : Nat) (h : v < 2 ^ 15) : toInt16 v = v := by
  unfold toInt16; split <;> omega

theorem toInt32_small (v : Nat) (h : v < 2 ^ 31) : toInt32 v = v := by
  unfold toInt32; split <;> omega

theorem ceil_le_iff (T R n : Nat) (hR : 0 < R) : (T + R - 1) / R ≤ n ↔ T ≤ n * R := by
  rw [← Nat.lt_succ_iff, Nat.div_lt_iff_lt_mul hR, Nat.succ_mul]
  omega

theorem sum_uniform_ticks (R : Nat) (outs : List (List Int)) :
    ((outs.map fun o => (R, o)).map Prod.fst).sum = outs.length * R := by
  induction outs with
  | nil => simp
  | cons o rest ih =>
    simp only [List.map_cons, List.sum_cons, List.length_cons, ih, Nat.succ_mul]
    omega

end Wav

namespace WavPlayerCpp
open Wav

theorem audioCallback_copy_cpp (player : WAVPlayer) (output : List Int) (R c : Nat)
    (hch : player.audioData.channels = c)
    (hcur : player.audioData.currentFrame ≤ player.audioData.totalFrames)
    (htot : player.audioData.totalFrames < 2 ^ 64)
    (hbuf : player.audioData.totalFrames * c ≤ player.audioData.samples.length)
    (hmem : player.audioData.samples.length * 2 < 2 ^ 64)
    (hout : output.length = R * c) (houtmem : output.length * 2 < 2 ^ 64)
    (hc : c < 2 ^ 64)
    (hk : 0 < min R (player.audioData.totalFrames - player.audioData.currentFrame)) :
    ∃ last,
    audioCallback player output R =
      some (.paContinue,
        { audioData := { player.audioData with
            currentFrame := player.audioData.currentFrame
              + min R (player.audioData.totalFrames - player.audioData.currentFrame) },
          lastReported := last },
        (player.audioData.samples.drop (player.audioData.currentFrame * c)).take
            (min R (player.audioData.totalFrames - player.audioData.currentFrame) * c)
          ++ List.replicate
            ((R - min R (player.audioData.totalFrames - player.audioData.currentFrame)) * c) 0) := by
  obtain ⟨⟨samples, total, cur, channels, rate⟩, last⟩ := player
  simp only at hch hcur htot hbuf hmem hk ⊢
  subst hch
  generalize hkdef : min R (total - cur) = k at hk ⊢
  have hkR : k ≤ R := by omega
  have hkT : k ≤ total - cur := by omega
  have h1 : k * c ≤ (total - cur) * c := Nat.mul_le_mul_right c hkT
  have h2 : cur * c + (total - cur) * c = total * c := by
    rw [← Nat.add_mul]; congr 1; omega
  have h3 : k * c + (R - k) * c = R * c := by
    rw [← Nat.add_mul]; congr 1; omega
  have e1 : k * c % 2 ^ 64 = k * c := Nat.mod_eq_of_lt (by omega)
  have e2 : cur * c % 2 ^ 64 = cur * c := Nat.mod_eq_of_lt (by omega)
  have e3 : k * c * 2 % 2 ^ 64 = k * c * 2 := Nat.mod_eq_of_lt (by omega)
  have e4 : (R - k) * c % 2 ^ 64 = (R - k) * c := Nat.mod_eq_of_lt (by omega)
  have e5 : (R - k) * c * 2 % 2 ^ 64 = (R - k) * c * 2 := Nat.mod_eq_of_lt (by omega)
  have e6 : (cur + k) % 2 ^ 64 = cur + k := Nat.mod_eq_of_lt (by omega)
  have b6 : cur * c + k * c ≤ samples.length := by omega
  have b7 : k * c ≤ output.length := by omega
  have hcopylen : ((samples.drop (cur * c)).take (k * c)).length = k * c := by
    rw [List.length_take, List.length_drop]; omega
  have hlen2 : k * c + (R - k) * c
      = ((samples.drop (cur * c)).take (k * c) ++ output.drop (k * c)).length := by
    rw [List.length_append, hcopylen, List.length_drop]; omega
  have hkcase : k < R ∨ k = R := by omega
  have hmin : min R (toSizeT ((total : Int) - (cur : Int))) = k := by
    rw [toSizeT_natCast_sub _ _ hcur htot, hkdef]
  simp only [audioCallback, toSizeT_natCast c hc, hmin, gt_iff_lt, hk, if_true, e1, e2, e3, e4,
    e5, e6]
  rw [memcpy_front _ _ _ _ b6 b7]
  simp only
  rcases hkcase with hlt | hkeq
  · simp only [hlt, if_true]
    rw [memset_tail _ (k * c) ((R - k) * c) hlen2,
      List.take_append_of_le_length (by omega), List.take_of_length_le (by omega)]
    exact ⟨_, rfl⟩
  · have hnil : List.drop (k * c) output = [] := by
      apply List.drop_of_length_le; rw [hout, hkeq]
    have hz : (R - k) * c = 0 := by rw [hkeq]; simp
    have hnlt : ¬ k < R := by omega
    simp only [hnlt, if_false, hnil, hz, List.replicate_zero]
    exact ⟨_, rfl⟩

theorem audioCallback_zero_cpp (player : WAVPlayer) (output : List Int) :
    audioCallback player output 0 = some (.paComplete, player, output) := by
  have h0 : ∀ x : Nat, min 0 x = 0 := fun x => Nat.zero_min x
  simp only [audioCallback, h0, gt_iff_lt, Nat.lt_irrefl, if_false, Nat.zero_mul, Nat.zero_mod]
  rw [memset_zero_bytes _ _ (Nat.zero_le _)]

theorem audioCallback_drained_cpp (player : WAVPlayer) (output : List Int) (R c : Nat)
    (hch : player.audioData.channels = c)
    (hcur : player.audioData.currentFrame = player.audioData.totalFrames)
    (hout : output.length = R * c) (houtmem : output.length * 2 < 2 ^ 64)
    (hc : c < 2 ^ 64) :
    audioCallback player output R = some (.paComplete, player, List.replicate (R * c) 0) := by
  have hrem : toSizeT ((player.audioData.totalFrames : Int) - player.audioData.currentFrame)
      = 0 := by
    rw [hcur, sub_self]; rfl
  have e1 : R * c % 2 ^ 64 = R * c := Nat.mod_eq_of_lt (by omega)
  have e2 : R * c * 2 % 2 ^ 64 = R * c * 2 := Nat.mod_eq_of_lt (by omega)
  simp only [audioCallback, hrem, Nat.min_zero, gt_iff_lt, Nat.lt_irrefl, if_false, hch,
    toSizeT_natCast c hc, e1, e2]
  rw [memset_tail output 0 (R * c) (by omega)]
  simp only [List.take_zero, List.nil_append]

theorem audioCallback_spec_cpp (samples : List Int) (T u c rate last : Nat) (output : List Int)
    (R : Nat) (hle : u ≤ T) (hT : T < 2 ^ 64) (hbuf : T * c ≤ samples.length)
    (hmem : samples.length * 2 < 2 ^ 64) (hc : c < 2 ^ 64)
    (hout : output.length = R * c) (houtmem : output.length * 2 < 2 ^ 64) :
    ∃ last1,
    audioCallback ⟨⟨samples, T, u, c, rate⟩, last⟩ output R =
      some (if 0 < min R (T - u) then .paContinue else .paComplete,
        ⟨⟨samples, T, u + min R (T - u), c, rate⟩, last1⟩,
        (samples.drop (u * c)).take (min R (T - u) * c)
          ++ List.replicate ((R - min R (T - u)) * c) 0) := by
  by_cases hk : 0 < min R (T - u)
  · obtain ⟨l1, h⟩ := audioCallback_copy_cpp ⟨⟨samples, T, u, c, rate⟩, last⟩ output R c rfl hle hT
      hbuf hmem hout houtmem hc hk
    exact ⟨l1, by rw [h, if_pos hk]⟩
  · have hk0 : min R (T - u) = 0 := by omega
    refine ⟨last, ?_⟩
    rw [hk0, if_neg (Nat.lt_irrefl 0), Nat.zero_mul, List.take_zero, List.nil_append,
      Nat.add_zero, Nat.sub_zero]
    by_cases hR : R = 0
    · subst hR
      have hnil : output = [] := List.length_eq_zero.mp (by rw [hout, Nat.zero_mul])
      rw [audioCallback_zero_cpp, hnil, Nat.zero_mul, List.replicate_zero]
    · have huT : u = T := by omega
      subst huT
      exact audioCallback_drained_cpp ⟨⟨samples, u, u, c, rate⟩, last⟩ output R c rfl rfl hout
        houtmem hc

theorem runTicks_spec_cpp (samples : List Int) (T c rate : Nat) (hT : T < 2 ^ 64)
    (hbuf : T * c ≤ samples.length) (hmem : samples.length * 2 < 2 ^ 64) (hc : c < 2 ^ 64) :
    ∀ (ticks : List (Nat × List Int)) (u last : Nat), u ≤ T →
      (∀ t ∈ ticks, t.2.length = t.1 * c ∧ t.2.length * 2 < 2 ^ 64) →
      ∃ last1 trace,
        runTicks ⟨⟨samples, T, u, c, rate⟩, last⟩ ticks
          = some (⟨⟨samples, T, min (u + (ticks.map Prod.fst).sum) T, c, rate⟩, last1⟩, trace)
        ∧ (framesCopied ⟨⟨samples, T, u, c, rate⟩, last⟩ trace).sum
          = min (u + (ticks.map Prod.fst).sum) T - u
        ∧ samplesCopied ⟨⟨samples, T, u, c, rate⟩, last⟩ trace
          = (samples.drop (u * c)).take ((min (u + (ticks.map Prod.fst).sum) T - u) * c)
        ∧ trace.length = ticks.length := by
  intro ticks
  induction ticks with
  | nil =>
    intro u last hle _
    refine ⟨last, [], ?_, ?_, ?_, rfl⟩
    · simp only [List.map_nil, List.sum_nil, Nat.add_zero, Nat.min_eq_left hle]
      rfl
    · simp only [List.map_nil, List.sum_nil, Nat.add_zero, Nat.min_eq_left hle, Nat.sub_self]
      rfl
    · simp only [List.map_nil, List.sum_nil, Nat.add_zero, Nat.min_eq_left hle, Nat.sub_self,
        Nat.zero_mul, List.take_zero]
      rfl
  | cons t rest ih =>
    intro u last hle hblocks
    obtain ⟨R, output⟩ := t
    have hthis := hblocks (R, output) (List.mem_cons_self _ _)
    have hrest : ∀ t ∈ rest, t.2.length = t.1 * c ∧ t.2.length * 2 < 2 ^ 64 :=
      fun t ht => hblocks t (List.mem_cons_of_mem _ ht)
    obtain ⟨last1, htick⟩ := audioCallback_spec_cpp samples T u c rate last output R hle hT hbuf
      hmem hc hthis.1 hthis.2
    generalize hkdef : min R (T - u) = k at htick
    have hu1 : u + k ≤ T := by omega
    obtain ⟨sig, block, hblock, htick⟩ : ∃ sig block,
        block = (samples.drop (u * c)).take (k * c) ++ List.replicate ((R - k) * c) 0
        ∧ audioCallback ⟨⟨samples, T, u, c, rate⟩, last⟩ output R
          = some (sig, ⟨⟨samples, T, u + k, c, rate⟩, last1⟩, block) := ⟨_, _, rfl, htick⟩
    obtain ⟨last2, trace, hrun, hframes, hsamples, hlen⟩ := ih (u + k) last1 hu1 hrest
    generalize hFdef : min (u + k + (rest.map Prod.fst).sum) T = F at hrun hframes hsamples
    have hF : min (u + ((R, output) :: rest |>.map Prod.fst).sum) T = F := by
      simp only [List.map_cons, List.sum_cons]; omega
    have hFu : u + k ≤ F := by omega
    rw [hF]
    refine ⟨last2, (sig, ⟨⟨samples, T, u + k, c, rate⟩, last1⟩, block) :: trace, ?_, ?_, ?_, ?_⟩
    · simp only [runTicks, htick, hrun]
    · simp only [framesCopied, List.sum_cons, hframes]
      omega
    · have hcopylen : ((samples.drop (u * c)).take (k * c)).length = k * c := by
        have h1 : k * c ≤ (T - u) * c := Nat.mul_le_mul_right c (by omega)
        have h2 : u * c + (T - u) * c = T * c := by
          rw [← Nat.add_mul]; congr 1; omega
        rw [List.length_take, List.length_drop]; omega
      have hsplit : (F - u) * c = k * c + (F - (u + k)) * c := by
        rw [← Nat.add_mul]; congr 1; omega
      simp only [samplesCopied, hsamples, Int.toNat_ofNat, Nat.add_sub_cancel_left, hblock]
      rw [List.take_append_of_le_length (by omega), List.take_of_length_le (by omega), hsplit,
        List.take_add, List.drop_drop, Nat.add_mul]
    · simp only [List.length_cons, hlen]

theorem audioCallback_cursor_cpp (player next : WAVPlayer) (output block : List Int) (R : Nat)
    (result : PaStreamCallbackResult)
    (hle : player.audioData.currentFrame ≤ player.audioData.totalFrames)
    (hT : player.audioData.totalFrames < 2 ^ 64)
    (h : audioCallback player output R = some (result, next, block)) :
    next.audioData = { player.audioData with
        currentFrame := player.audioData.currentFrame
          + min R (player.audioData.totalFrames - player.audioData.currentFrame) }
      ∧ (player.audioData.currentFrame = player.audioData.totalFrames → next = player) := by
  obtain ⟨⟨samples, total, cur, channels, rate⟩, last⟩ := player
  simp only at hle hT ⊢
  generalize hkdef : min R (total - cur) = k
  have hmin : min R (toSizeT ((total : Int) - (cur : Int))) = k := by
    rw [toSizeT_natCast_sub _ _ hle hT, hkdef]
  have e6 : (cur + k) % 2 ^ 64 = cur + k := Nat.mod_eq_of_lt (by omega)
  simp only [audioCallback, hmin, gt_iff_lt, e6] at h
  by_cases hk : 0 < k
  · simp only [hk, if_true] at h
    split at h
    · exact absurd h (by simp)
    · split at h
      · exact absurd h (by simp)
      · simp only [Option.some.injEq, Prod.mk.injEq] at h
        refine ⟨?_, fun heq => ?_⟩
        · rw [← h.2.1]
        · omega
  · have hk0 : k = 0 := by omega
    simp only [hk, if_false] at h
    split at h
    · exact absurd h (by simp)
    · simp only [Option.some.injEq, Prod.mk.injEq] at h
      refine ⟨?_, fun _ => h.2.1.symm⟩
      rw [← h.2.1, hk0]
      rfl

theorem loadWAV_invalid_cpp (audioData : AudioData) (bytes : List Byte) (h44 : 44 ≤ bytes.length)
    (htag : bytes.take 4 ≠ RIFF ∨ (bytes.drop 8).take 4 ≠ WAVE) :
    loadWAV audioData (some bytes) = some (.InvalidContainer, audioData) := by
  unfold loadWAV
  simp only []
  rw [if_neg (Nat.not_lt.mpr h44), if_pos ((tags_iff bytes h44).mpr htag)]

theorem loadWAV_bitDepth_cpp (audioData : AudioData) (bytes : List Byte) (h44 : 44 ≤ bytes.length)
    (htag : ¬ (bytes.take 4 ≠ RIFF ∨ (bytes.drop 8).take 4 ≠ WAVE))
    (hbits : (headerFields (bytes.take 44)).bitsPerSample ≠ 16) :
    loadWAV audioData (some bytes) =
      some (.UnsupportedBitDepth (headerFields (bytes.take 44)).bitsPerSample,
        { audioData with channels := (headerFields (bytes.take 44)).channels,
                         sampleRate := (headerFields (bytes.take 44)).sampleRate }) := by
  unfold loadWAV
  simp only []
  rw [if_neg (Nat.not_lt.mpr h44), if_neg (fun h => htag ((tags_iff bytes h44).mp h)),
    if_pos hbits]

theorem loadWAV_loaded_cpp (audioData loaded : AudioData) (file : Option (List Byte))
    (h : loadWAV audioData file = some (.Loaded, loaded)) :
    ∃ bytes, file = some bytes ∧ 44 ≤ bytes.length
      ∧ (headerFields (bytes.take 44)).bitsPerSample = 16
      ∧ (headerFields (bytes.take 44)).channels ≠ 0
      ∧ 0 ≤ Int.tdiv (headerFields (bytes.take 44)).dataSize 2
      ∧ loaded.channels = (headerFields (bytes.take 44)).channels
      ∧ loaded.sampleRate = (headerFields (bytes.take 44)).sampleRate
      ∧ loaded.totalFrames = toSizeT (Int.tdiv (headerFields (bytes.take 44)).dataSize
          ((headerFields (bytes.take 44)).channels * 2))
      ∧ loaded.currentFrame = 0
      ∧ loaded.samples.length = (Int.tdiv (headerFields (bytes.take 44)).dataSize 2).toNat := by
  unfold loadWAV at h
  match file, h with
  | none, h => exact absurd h (by simp)
  | some bytes, h =>
    simp only [] at h
    split at h
    · exact absurd h (by simp)
    · rename_i h44
      split at h
      · exact absurd h (by simp)
      · split at h
        · exact absurd h (by simp)
        · rename_i hbits
          split at h
          · exact absurd h (by simp)
          · rename_i hch
            split at h
            · exact absurd h (by simp)
            · rename_i hneg
              split at h
              · exact absurd h (by simp)
              · rename_i storage hread
                simp only [Option.some.injEq, Prod.mk.injEq, true_and] at h
                have hlen := length_readInto _ _ _ hread
                refine ⟨bytes, rfl, by omega, by simpa using hbits, ?_, by omega, ?_, ?_, ?_, ?_,
                  ?_⟩
                · intro h0; apply hch; rw [h0]; rfl
                · rw [← h]
                · rw [← h]
                · rw [← h]
                · rw [← h]
                · rw [← h]
                  simp only []
                  rw [length_samplesOf _ _ (Nat.le_refl _), hlen, length_storageOf,
                    List.length_append, List.length_take, List.length_replicate]
                  omega

theorem runTicks_cursor_cpp : ∀ (ticks : List (Nat × List Int)) (player final : WAVPlayer)
    (trace : List (PaStreamCallbackResult × WAVPlayer × List Int)),
    player.audioData.currentFrame ≤ player.audioData.totalFrames →
    player.audioData.totalFrames < 2 ^ 64 →
    runTicks player ticks = some (final, trace) →
    final.audioData.totalFrames = player.audioData.totalFrames
      ∧ player.audioData.currentFrame ≤ final.audioData.currentFrame
      ∧ final.audioData.currentFrame ≤ final.audioData.totalFrames := by
  intro ticks
  induction ticks with
  | nil =>
    intro player final trace hle _ h
    simp only [runTicks, Option.some.injEq, Prod.mk.injEq] at h
    rw [← h.1]
    exact ⟨rfl, Nat.le_refl _, hle⟩
  | cons t rest ih =>
    intro player final trace hle hT h
    obtain ⟨R, output⟩ := t
    simp only [runTicks] at h
    split at h
    · exact absurd h (by simp)
    · rename_i result next block htick
      split at h
      · exact absurd h (by simp)
      · rename_i final1 trace1 hrun
        simp only [Option.some.injEq, Prod.mk.injEq] at h
        have hnext := (audioCallback_cursor_cpp player next output block R result hle hT htick).1
        have h1 : next.audioData.totalFrames = player.audioData.totalFrames := by rw [hnext]
        have h2 : next.audioData.currentFrame = player.audioData.currentFrame
            + min R (player.audioData.totalFrames - player.audioData.currentFrame) := by
          rw [hnext]
        obtain ⟨i1, i2, i3⟩ := ih next final1 trace1 (by omega) (by omega) hrun
        rw [← h.1]
        exact ⟨by omega, by omega, i3⟩

theorem audioCallback_drained_block_cpp (player : WAVPlayer) (output : List Int) (R : Nat)
    (hcur : player.audioData.currentFrame = player.audioData.totalFrames)
    (hblock : OutputBlock player.audioData.channels R output) :
    audioCallback player output R
      = some (.paComplete, player, List.replicate output.length 0) := by
  obtain ⟨_, hout, houtmem⟩ := hblock
  unfold InMemory at houtmem
  by_cases hR : R = 0
  · subst hR
    have hnil : output = [] := List.length_eq_zero.mp (by
      have : (output.length : Int) = 0 := by rw [hout]; simp
      exact_mod_cast this)
    rw [audioCallback_zero_cpp, hnil]; rfl
  · have hRpos : (0 : Int) < R := by exact_mod_cast Nat.pos_of_ne_zero hR
    have hlen0 : (0 : Int) ≤ output.length := Int.ofNat_nonneg _
    have hch0 : 0 ≤ player.audioData.channels := by
      by_contra hneg
      have : (R : Int) * player.audioData.channels < 0 :=
        Int.mul_neg_of_pos_of_neg hRpos (by omega)
      omega
    obtain ⟨c, hc⟩ := Int.eq_ofNat_of_zero_le hch0
    have hout1 : output.length = R * c := by rw [hc] at hout; exact_mod_cast hout
    have hc1 : 1 * c ≤ R * c := Nat.mul_le_mul_right c (Nat.pos_of_ne_zero hR)
    rw [audioCallback_drained_cpp player output R c hc hcur hout1 houtmem (by omega), hout1]

theorem runTicks_drained_cpp (player : WAVPlayer)
    (hcur : player.audioData.currentFrame = player.audioData.totalFrames) :
    ∀ ticks : List (Nat × List Int),
      (∀ t ∈ ticks, OutputBlock player.audioData.channels t.1 t.2) →
      runTicks player ticks
        = some (player, ticks.map fun t => (.paComplete, player, List.replicate t.2.length 0)) := by
  intro ticks
  induction ticks with
  | nil => intro _; rfl
  | cons t rest ih =>
    intro hblocks
    obtain ⟨R, output⟩ := t
    have h1 := audioCallback_drained_block_cpp player output R hcur
      (hblocks (R, output) (List.mem_cons_self _ _))
    have h2 := ih (fun t ht => hblocks t (List.mem_cons_of_mem _ ht))
    simp only [runTicks, h1, h2, List.map_cons]

end WavPlayerCpp

namespace WavPlayerExample
open Wav

theorem long_natCast (n : Nat) (h : n < 2 ^ 63) : long (n : Int) = some (n : Int) := by
  unfold long; rw [if_pos (by omega)]

theorem long_natCast_mul (a b : Nat) (h : a * b < 2 ^ 63) :
    long ((a : Int) * (b : Int)) = some ((a * b : Nat) : Int) := by
  rw [← Nat.cast_mul]; exact long_natCast _ h

theorem long_natCast_add (a b : Nat) (h : a + b < 2 ^ 63) :
    long ((a : Int) + (b : Int)) = some ((a + b : Nat) : Int) := by
  rw [← Nat.cast_add]; exact long_natCast _ h

theorem long_natCast_sub (a b : Nat) (h : b ≤ a) (ha : a < 2 ^ 63) :
    long ((a : Int) - (b : Int)) = some ((a - b : Nat) : Int) := by
  rw [← Nat.cast_sub h]; exact long_natCast _ (by omega)

theorem elementAt_natCast (n : Nat) : elementAt (n : Int) = some n := by
  simp [elementAt]

theorem audioCallback_copy_c (a : AudioData) (output : List Int) (R c T u : Nat)
    (hch : a.channels = c) (htot : a.totalFrames = T) (hcur : a.currentFrame = u)
    (hle : u ≤ T) (hT : T < 2 ^ 63)
    (hbuf : T * c ≤ a.samples.length)
    (hmem : a.samples.length * 2 < 2 ^ 64)
    (hR : R < 2 ^ 64) (hout : output.length = R * c) (houtmem : output.length * 2 < 2 ^ 64)
    (hc : c < 2 ^ 63)
    (hk : 0 < min R (T - u)) :
    audioCallback a output R =
      some (.paContinue, { a with currentFrame := ((u + min R (T - u) : Nat) : Int) },
        (a.samples.drop (u * c)).take (min R (T - u) * c)
          ++ List.replicate ((R - min R (T - u)) * c) 0) := by
  generalize hkdef : min R (T - u) = k at hk ⊢
  have hkR : k ≤ R := by omega
  have hkT : k ≤ T - u := by omega
  have h1 : k * c ≤ (T - u) * c := Nat.mul_le_mul_right c hkT
  have h2 : u * c + (T - u) * c = T * c := by
    rw [← Nat.add_mul]; congr 1; omega
  have h3 : k * c + (R - k) * c = R * c := by
    rw [← Nat.add_mul]; congr 1; omega
  have h4 : u * c ≤ T * c := Nat.mul_le_mul_right c hle
  have hchosen : (if T - u < R then T - u else R) = k := by
    split <;> omega
  have e3 : k * c * 2 % 2 ^ 64 = k * c * 2 := Nat.mod_eq_of_lt (by omega)
  have e4 : (R - k) * c % 2 ^ 64 = (R - k) * c := Nat.mod_eq_of_lt (by omega)
  have e5 : (R - k) * c * 2 % 2 ^ 64 = (R - k) * c * 2 := Nat.mod_eq_of_lt (by omega)
  have hkpos : (k : Int) > 0 := by exact_mod_cast hk
  have b1 : T - u < 2 ^ 64 := by omega
  have b2 : k < 2 ^ 63 := by omega
  have b3 : u * c < 2 ^ 63 := by omega
  have b4 : k * c < 2 ^ 63 := by omega
  have b5 : u + k < 2 ^ 63 := by omega
  have b6 : u * c + k * c ≤ a.samples.length := by omega
  have b7 : k * c ≤ output.length := by omega
  have hcopylen : ((a.samples.drop (u * c)).take (k * c)).length = k * c := by
    rw [List.length_take, List.length_drop]; omega
  have hkcase : k < R ∨ k = R := by omega
  have hlen2 : k * c + (R - k) * c
      = ((a.samples.drop (u * c)).take (k * c) ++ output.drop (k * c)).length := by
    rw [List.length_append, hcopylen, List.length_drop]; omega
  unfold audioCallback
  rw [hch, htot, hcur, long_natCast_sub T u hle hT, Option.some_bind]
  simp only []
  rw [toSizeT_natCast _ b1, hchosen, toLong_natCast _ b2, if_pos hkpos,
    long_natCast_mul _ _ b3, Option.some_bind, long_natCast_mul _ _ b4, Option.some_bind,
    elementAt_natCast, Option.some_bind, toSizeT_natCast _ (by omega), e3,
    memcpy_front _ _ _ _ b6 b7, Option.some_bind, long_natCast_add _ _ b5, Option.some_bind,
    toSizeT_natCast _ (by omega)]
  rcases hkcase with hlt | hkeq
  · rw [if_pos hlt, elementAt_natCast, Option.some_bind, toSizeT_natCast_sub _ _ hkR hR,
      toSizeT_natCast _ (by omega), e4, e5,
      memset_tail _ (k * c) ((R - k) * c) hlen2, Option.some_bind,
      List.take_append_of_le_length (by omega), List.take_of_length_le (by omega)]
  · have hnil : List.drop (k * c) output = [] := by
      apply List.drop_of_length_le; rw [hout, hkeq]
    have hz : (R - k) * c = 0 := by rw [hkeq]; simp
    rw [if_neg (by omega), Option.some_bind, hnil, hz, List.replicate_zero]

theorem audioCallback_zero_c (a : AudioData) (output : List Int)
    (hlo : -2 ^ 63 ≤ a.totalFrames - a.currentFrame)
    (hhi : a.totalFrames - a.currentFrame < 2 ^ 63) :
    audioCallback a output 0 = some (.paComplete, a, output) := by
  have hrem : long (a.totalFrames - a.currentFrame) = some (a.totalFrames - a.currentFrame) := by
    unfold long; rw [if_pos ⟨hlo, hhi⟩]
  have hchosen : ∀ x : Nat, (if x < 0 then x else 0) = 0 := by
    intro x; rw [if_neg (Nat.not_lt_zero x)]
  have hl0 : toLong ((0 : Nat) : Int) = 0 := toLong_natCast 0 (by omega)
  have hnot : ¬ ((0 : Int) > 0) := by omega
  unfold audioCallback
  rw [hrem, Option.some_bind]
  simp only []
  rw [hchosen, hl0, if_neg hnot, Nat.zero_mul, Nat.zero_mod, Nat.zero_mul, Nat.zero_mod,
    memset_zero_bytes _ _ (Nat.zero_le _), Option.some_bind]

theorem audioCallback_drained_c (a : AudioData) (output : List Int) (R c : Nat)
    (hch : a.channels = c) (hcur : a.currentFrame = a.totalFrames)
    (hout : output.length = R * c) (houtmem : output.length * 2 < 2 ^ 64)
    (hc : c < 2 ^ 64) :
    audioCallback a output R = some (.paComplete, a, List.replicate (R * c) 0) := by
  have hrem : long (a.totalFrames - a.currentFrame) = some ((0 : Nat) : Int) := by
    rw [hcur, sub_self]; exact long_natCast 0 (by omega)
  have hs0 : toSizeT ((0 : Nat) : Int) = 0 := toSizeT_natCast 0 (by omega)
  have hchosen : (if 0 < R then 0 else R) = 0 := by
    split <;> omega
  have hl0 : toLong ((0 : Nat) : Int) = 0 := toLong_natCast 0 (by omega)
  have hnot : ¬ ((0 : Int) > 0) := by omega
  have e1 : R * c % 2 ^ 64 = R * c := Nat.mod_eq_of_lt (by omega)
  have e2 : R * c * 2 % 2 ^ 64 = R * c * 2 := Nat.mod_eq_of_lt (by omega)
  unfold audioCallback
  rw [hrem, Option.some_bind]
  simp only []
  rw [hs0, hchosen, hl0, if_neg hnot, hch, toSizeT_natCast c hc, e1, e2,
    memset_tail output 0 (R * c) (by omega), Option.some_bind, List.take_zero, List.nil_append]

theorem audioCallback_spec_c (samples : List Int) (T u c : Nat) (rate : Int) (output : List Int)
    (R : Nat) (hle : u ≤ T) (hT : T < 2 ^ 63) (hbuf : T * c ≤ samples.length)
    (hmem : samples.length * 2 < 2 ^ 64) (hc : c < 2 ^ 63) (hR : R < 2 ^ 64)
    (hout : output.length = R * c) (houtmem : output.length * 2 < 2 ^ 64) :
    audioCallback ⟨samples, T, u, c, rate⟩ output R =
      some (if 0 < min R (T - u) then .paContinue else .paComplete,
        ⟨samples, T, ((u + min R (T - u) : Nat) : Int), c, rate⟩,
        (samples.drop (u * c)).take (min R (T - u) * c)
          ++ List.replicate ((R - min R (T - u)) * c) 0) := by
  by_cases hk : 0 < min R (T - u)
  · rw [audioCallback_copy_c ⟨samples, T, u, c, rate⟩ output R c T u rfl rfl rfl hle hT hbuf hmem
      hR hout houtmem hc hk, if_pos hk]
  · have hk0 : min R (T - u) = 0 := by omega
    rw [hk0, if_neg (Nat.lt_irrefl 0), Nat.zero_mul, List.take_zero, List.nil_append,
      Nat.add_zero, Nat.sub_zero]
    by_cases hR0 : R = 0
    · subst hR0
      have hnil : output = [] := List.length_eq_zero.mp (by rw [hout, Nat.zero_mul])
      have hlo : -2 ^ 63 ≤ ((T : Int) - (u : Int)) := by omega
      have hhi : ((T : Int) - (u : Int)) < 2 ^ 63 := by omega
      rw [audioCallback_zero_c ⟨samples, T, u, c, rate⟩ output hlo hhi, hnil, Nat.zero_mul,
        List.replicate_zero]
    · have huT : u = T := by omega
      subst huT
      exact audioCallback_drained_c ⟨samples, u, u, c, rate⟩ output R c rfl rfl hout houtmem
        (by omega)

theorem runTicks_spec_c (samples : List Int) (T c : Nat) (rate : Int) (hT : T < 2 ^ 63)
    (hbuf : T * c ≤ samples.length) (hmem : samples.length * 2 < 2 ^ 64) (hc : c < 2 ^ 63) :
    ∀ (ticks : List (Nat × List Int)) (u : Nat), u ≤ T →
      (∀ t ∈ ticks, t.1 < 2 ^ 64 ∧ t.2.length = t.1 * c ∧ t.2.length * 2 < 2 ^ 64) →
      ∃ trace,
        runTicks ⟨samples, T, u, c, rate⟩ ticks
          = some (⟨samples, T, ((min (u + (ticks.map Prod.fst).sum) T : Nat) : Int), c, rate⟩,
              trace)
        ∧ (framesCopied ⟨samples, T, u, c, rate⟩ trace).sum
          = ((min (u + (ticks.map Prod.fst).sum) T - u : Nat) : Int)
        ∧ samplesCopied ⟨samples, T, u, c, rate⟩ trace
          = (samples.drop (u * c)).take ((min (u + (ticks.map Prod.fst).sum) T - u) * c)
        ∧ trace.length = ticks.length := by
  intro ticks
  induction ticks with
  | nil =>
    intro u hle _
    refine ⟨[], ?_, ?_, ?_, rfl⟩
    · simp only [List.map_nil, List.sum_nil, Nat.add_zero, Nat.min_eq_left hle]
      rfl
    · simp only [List.map_nil, List.sum_nil, Nat.add_zero, Nat.min_eq_left hle, Nat.sub_self]
      rfl
    · simp only [List.map_nil, List.sum_nil, Nat.add_zero, Nat.min_eq_left hle, Nat.sub_self,
        Nat.zero_mul, List.take_zero]
      rfl
  | cons t rest ih =>
    intro u hle hblocks
    obtain ⟨R, output⟩ := t
    have hthis := hblocks (R, output) (List.mem_cons_self _ _)
    have hrest : ∀ t ∈ rest, t.1 < 2 ^ 64 ∧ t.2.length = t.1 * c ∧ t.2.length * 2 < 2 ^ 64 :=
      fun t ht => hblocks t (List.mem_cons_of_mem _ ht)
    have htick := audioCallback_spec_c samples T u c rate output R hle hT hbuf hmem hc hthis.1
      hthis.2.1 hthis.2.2
    generalize hkdef : min R (T - u) = k at htick
    have hu1 : u + k ≤ T := by omega
    obtain ⟨sig, block, hblock, htick⟩ : ∃ sig block,
        block = (samples.drop (u * c)).take (k * c) ++ List.replicate ((R - k) * c) 0
        ∧ audioCallback ⟨samples, T, u, c, rate⟩ output R
          = some (sig, ⟨samples, T, ((u + k : Nat) : Int), c, rate⟩, block) := ⟨_, _, rfl, htick⟩
    obtain ⟨trace, hrun, hframes, hsamples, hlen⟩ := ih (u + k) hu1 hrest
    generalize hFdef : min (u + k + (rest.map Prod.fst).sum) T = F at hrun hframes hsamples
    have hF : min (u + ((R, output) :: rest |>.map Prod.fst).sum) T = F := by
      simp only [List.map_cons, List.sum_cons]; omega
    have hFu : u + k ≤ F := by omega
    rw [hF]
    refine ⟨(sig, ⟨samples, T, ((u + k : Nat) : Int), c, rate⟩, block) :: trace, ?_, ?_, ?_, ?_⟩
    · simp only [runTicks, htick, hrun]
    · simp only [framesCopied, List.sum_cons, hframes]
      omega
    · have hcopylen : ((samples.drop (u * c)).take (k * c)).length = k * c := by
        have h1 : k * c ≤ (T - u) * c := Nat.mul_le_mul_right c (by omega)
        have h2 : u * c + (T - u) * c = T * c := by
          rw [← Nat.add_mul]; congr 1; omega
        rw [List.length_take, List.length_drop]; omega
      have hsplit : (F - u) * c = k * c + (F - (u + k)) * c := by
        rw [← Nat.add_mul]; congr 1; omega
      have hadv : ((((u + k : Nat) : Int) - (u : Int)) * (c : Int)).toNat = k * c := by
        have : (((u + k : Nat) : Int) - (u : Int)) * (c : Int) = ((k * c : Nat) : Int) := by
          push_cast; ring
        rw [this, Int.toNat_ofNat]
      simp only [samplesCopied, hsamples, hadv, hblock]
      rw [List.take_append_of_le_length (by omega), List.take_of_length_le (by omega), hsplit,
        List.take_add, List.drop_drop, Nat.add_mul]
    · simp only [List.length_cons, hlen]

theorem audioCallback_cursor_c (a next : AudioData) (output block : List Int) (R T u : Nat)
    (result : PaStreamCallbackResult)
    (htot : a.totalFrames = T) (hcur : a.currentFrame = u) (hle : u ≤ T) (hT : T < 2 ^ 63)
    (h : audioCallback a output R = some (result, next, block)) :
    next = { a with currentFrame := ((u + min R (T - u) : Nat) : Int) }
      ∧ (u = T → next = a) := by
  generalize hkdef : min R (T - u) = k
  have hchosen : (if T - u < R then T - u else R) = k := by
    split <;> omega
  have b1 : T - u < 2 ^ 64 := by omega
  have b2 : k < 2 ^ 63 := by omega
  have b5 : u + k < 2 ^ 63 := by omega
  have hkcase : 0 < k ∨ k = 0 := by omega
  unfold audioCallback at h
  rw [htot, hcur, long_natCast_sub T u hle hT, Option.some_bind] at h
  simp only [] at h
  rw [toSizeT_natCast _ b1, hchosen, toLong_natCast _ b2] at h
  rcases hkcase with hk | hk0
  · have hkpos : (k : Int) > 0 := by exact_mod_cast hk
    rw [if_pos hkpos] at h
    obtain ⟨start, -, h⟩ := Option.bind_eq_some.mp h
    obtain ⟨count, -, h⟩ := Option.bind_eq_some.mp h
    obtain ⟨srcOff, -, h⟩ := Option.bind_eq_some.mp h
    obtain ⟨copied, -, h⟩ := Option.bind_eq_some.mp h
    rw [long_natCast_add _ _ b5, Option.some_bind] at h
    obtain ⟨blk, -, h⟩ := Option.bind_eq_some.mp h
    simp only [Option.some.injEq, Prod.mk.injEq] at h
    refine ⟨?_, fun heq => ?_⟩
    · rw [← h.2.1, htot]
    · omega
  · have hnot : ¬ ((k : Int) > 0) := by omega
    rw [if_neg hnot] at h
    obtain ⟨blk, -, h⟩ := Option.bind_eq_some.mp h
    simp only [Option.some.injEq, Prod.mk.injEq] at h
    refine ⟨?_, fun _ => h.2.1.symm⟩
    rw [← h.2.1, hk0, Nat.add_zero, ← hcur]

theorem loadWAV_invalid_c (audioData : AudioData) (bytes : List Byte) (fresh : Nat → Byte)
    (h44 : 44 ≤ bytes.length)
    (htag : bytes.take 4 ≠ RIFF ∨ (bytes.drop 8).take 4 ≠ WAVE) :
    loadWAV audioData (some bytes) fresh = some (.InvalidContainer, audioData) := by
  unfold loadWAV
  simp only []
  rw [if_neg (Nat.not_lt.mpr h44), if_pos ((tags_iff bytes h44).mpr htag)]

theorem loadWAV_bitDepth_c (audioData : AudioData) (bytes : List Byte) (fresh : Nat → Byte)
    (h44 : 44 ≤ bytes.length)
    (htag : ¬ (bytes.take 4 ≠ RIFF ∨ (bytes.drop 8).take 4 ≠ WAVE))
    (hbits : (headerFields (bytes.take 44)).bitsPerSample ≠ 16) :
    loadWAV audioData (some bytes) fresh =
      some (.UnsupportedBitDepth (headerFields (bytes.take 44)).bitsPerSample,
        { audioData with channels := (headerFields (bytes.take 44)).channels,
                         sampleRate := (headerFields (bytes.take 44)).sampleRate }) := by
  unfold loadWAV
  simp only []
  rw [if_neg (Nat.not_lt.mpr h44), if_neg (fun h => htag ((tags_iff bytes h44).mp h)),
    if_pos hbits]

theorem loadWAV_loaded_c (audioData loaded : AudioData) (file : Option (List Byte))
    (fresh : Nat → Byte) (h : loadWAV audioData file fresh = some (.Loaded, loaded)) :
    ∃ bytes, file = some bytes ∧ 44 ≤ bytes.length
      ∧ (headerFields (bytes.take 44)).bitsPerSample = 16
      ∧ (headerFields (bytes.take 44)).channels ≠ 0
      ∧ 0 ≤ (headerFields (bytes.take 44)).dataSize
      ∧ loaded.channels = (headerFields (bytes.take 44)).channels
      ∧ loaded.sampleRate = (headerFields (bytes.take 44)).sampleRate
      ∧ loaded.totalFrames = Int.tdiv (headerFields (bytes.take 44)).dataSize
          ((headerFields (bytes.take 44)).channels * 2)
      ∧ loaded.currentFrame = 0
      ∧ loaded.samples.length = (headerFields (bytes.take 44)).dataSize.toNat / 2 := by
  unfold loadWAV at h
  match file, h with
  | none, h => exact absurd h (by simp)
  | some bytes, h =>
    simp only [] at h
    split at h
    · exact absurd h (by simp)
    · rename_i h44
      split at h
      · exact absurd h (by simp)
      · split at h
        · exact absurd h (by simp)
        · rename_i hbits
          split at h
          · exact absurd h (by simp)
          · rename_i hch
            split at h
            · exact absurd h (by simp)
            · rename_i hneg
              split at h
              · exact absurd h (by simp)
              · rename_i storage hread
                simp only [Option.some.injEq, Prod.mk.injEq, true_and] at h
                have hlen := length_readInto _ _ _ hread
                refine ⟨bytes, rfl, by omega, by simpa using hbits, ?_, by omega, ?_, ?_, ?_, ?_,
                  ?_⟩
                · intro h0; apply hch; rw [h0]; rfl
                · rw [← h]
                · rw [← h]
                · rw [← h]
                · rw [← h]
                · rw [← h]
                  simp only []
                  rw [length_samplesOf _ _ (Nat.le_refl _), hlen, List.length_map,
                    List.length_range]

theorem runTicks_cursor_c : ∀ (ticks : List (Nat × List Int)) (a final : AudioData)
    (trace : List (PaStreamCallbackResult × AudioData × List Int)),
    0 ≤ a.currentFrame → a.currentFrame ≤ a.totalFrames → a.totalFrames < 2 ^ 63 →
    runTicks a ticks = some (final, trace) →
    final.totalFrames = a.totalFrames
      ∧ a.currentFrame ≤ final.currentFrame
      ∧ final.currentFrame ≤ final.totalFrames := by
  intro ticks
  induction ticks with
  | nil =>
    intro a final trace _ hle _ h
    simp only [runTicks, Option.some.injEq, Prod.mk.injEq] at h
    rw [← h.1]
    exact ⟨rfl, Int.le_refl _, hle⟩
  | cons t rest ih =>
    intro a final trace h0 hle hT h
    obtain ⟨R, output⟩ := t
    simp only [runTicks] at h
    split at h
    · exact absurd h (by simp)
    · rename_i result next block htick
      split at h
      · exact absurd h (by simp)
      · rename_i final1 trace1 hrun
        simp only [Option.some.injEq, Prod.mk.injEq] at h
        obtain ⟨u, hu⟩ := Int.eq_ofNat_of_zero_le h0
        obtain ⟨T, hT'⟩ := Int.eq_ofNat_of_zero_le (Int.le_trans h0 hle)
        have hnext := (audioCallback_cursor_c a next output block R T u result hT' hu (by omega)
          (by omega) htick).1
        have h1 : next.totalFrames = a.totalFrames := by rw [hnext]
        have h2 : next.currentFrame = ((u + min R (T - u) : Nat) : Int) := by rw [hnext]
        obtain ⟨i1, i2, i3⟩ := ih next final1 trace1 (by omega) (by omega) (by omega) hrun
        rw [← h.1]
        exact ⟨by omega, by omega, i3⟩

theorem audioCallback_drained_block_c (a : AudioData) (output : List Int) (R : Nat)
    (hcur : a.currentFrame = a.totalFrames) (hblock : OutputBlock a.channels R output) :
    audioCallback a output R = some (.paComplete, a, List.replicate output.length 0) := by
  obtain ⟨_, hout, houtmem⟩ := hblock
  unfold InMemory at houtmem
  by_cases hR : R = 0
  · subst hR
    have hnil : output = [] := List.length_eq_zero.mp (by
      have : (output.length : Int) = 0 := by rw [hout]; simp
      exact_mod_cast this)
    have hlo : -2 ^ 63 ≤ a.totalFrames - a.currentFrame := by rw [hcur, sub_self]; decide
    have hhi : a.totalFrames - a.currentFrame < 2 ^ 63 := by rw [hcur, sub_self]; decide
    rw [audioCallback_zero_c a output hlo hhi, hnil]; rfl
  · have hRpos : (0 : Int) < R := by exact_mod_cast Nat.pos_of_ne_zero hR
    have hlen0 : (0 : Int) ≤ output.length := Int.ofNat_nonneg _
    have hch0 : 0 ≤ a.channels := by
      by_contra hneg
      have : (R : Int) * a.channels < 0 := Int.mul_neg_of_pos_of_neg hRpos (by omega)
      omega
    obtain ⟨c, hc⟩ := Int.eq_ofNat_of_zero_le hch0
    have hout1 : output.length = R * c := by rw [hc] at hout; exact_mod_cast hout
    have hc1 : 1 * c ≤ R * c := Nat.mul_le_mul_right c (Nat.pos_of_ne_zero hR)
    rw [audioCallback_drained_c a output R c hc hcur hout1 houtmem (by omega), hout1]

theorem runTicks_drained_c (a : AudioData) (hcur : a.currentFrame = a.totalFrames) :
    ∀ ticks : List (Nat × List Int),
      (∀ t ∈ ticks, OutputBlock a.channels t.1 t.2) →
      runTicks a ticks
        = some (a, ticks.map fun t => (.paComplete, a, List.replicate t.2.length 0)) := by
  intro ticks
  induction ticks with
  | nil => intro _; rfl
  | cons t rest ih =>
    intro hblocks
    obtain ⟨R, output⟩ := t
    have h1 := audioCallback_drained_block_c a output R hcur
      (hblocks (R, output) (List.mem_cons_self _ _))
    have h2 := ih (fun t ht => hblocks t (List.mem_cons_of_mem _ ht))
    simp only [runTicks, h1, h2, List.map_cons]

end WavPlayerExample

/-! The properties of the two players. -/

open Wav

/-- C1: in a playback state with a positive channel count `c`, a cursor within
`totalFrames` and a buffer that holds the `totalFrames` frames, a tick that requests
`R > 0` frames while `available = totalFrames - currentFrame > 0` signals "continue" (also
when it consumes the last frame), advances the cursor by `toCopy = min R available`, and
leaves in the output block of `R * c` samples first the `toCopy * c` buffer samples
starting at index `currentFrame * c`, in order, then `(R - toCopy) * c` zeros.  First
conjunct: the C++ player; second conjunct: the C player. -/
theorem tick_copies_available_frames_then_zero_fills :
    (∀ (player : WavPlayerCpp.WAVPlayer) (output : List Int) (R c : Nat),
      player.audioData.channels = c → 0 < c →
      player.audioData.currentFrame ≤ player.audioData.totalFrames →
      player.audioData.totalFrames * c ≤ player.audioData.samples.length →
      InMemory player.audioData.samples →
      OutputBlock c R output → 0 < R →
      0 < player.audioData.totalFrames - player.audioData.currentFrame →
      ∃ last,
        WavPlayerCpp.audioCallback player output R =
          some (.paContinue,
            { audioData := { player.audioData with
                currentFrame := player.audioData.currentFrame
                  + min R (player.audioData.totalFrames - player.audioData.currentFrame) },
              lastReported := last },
            (player.audioData.samples.drop (player.audioData.currentFrame * c)).take
                (min R (player.audioData.totalFrames - player.audioData.currentFrame) * c)
              ++ List.replicate
                ((R - min R (player.audioData.totalFrames - player.audioData.currentFrame)) * c)
                0)
        ∧ ((player.audioData.samples.drop (player.audioData.currentFrame * c)).take
            (min R (player.audioData.totalFrames - player.audioData.currentFrame) * c)).length
          = min R (player.audioData.totalFrames - player.audioData.currentFrame) * c)
    ∧ (∀ (audioData : WavPlayerExample.AudioData) (output : List Int) (R c T u : Nat),
      audioData.channels = c → 0 < c →
      audioData.totalFrames = T → audioData.currentFrame = u → u ≤ T →
      T * c ≤ audioData.samples.length →
      InMemory audioData.samples →
      OutputBlock c R output → 0 < R → 0 < T - u →
      WavPlayerExample.audioCallback audioData output R =
          some (.paContinue,
            { audioData with currentFrame := ((u + min R (T - u) : Nat) : Int) },
            (audioData.samples.drop (u * c)).take (min R (T - u) * c)
              ++ List.replicate ((R - min R (T - u)) * c) 0)
        ∧ ((audioData.samples.drop (u * c)).take (min R (T - u) * c)).length
          = min R (T - u) * c) := by
  constructor
  · intro player output R c hch hc hle hbuf hmem hblock hR havail
    obtain ⟨hR64, hout, houtmem⟩ := hblock
    unfold InMemory at hmem houtmem
    have hout1 : output.length = R * c := by exact_mod_cast hout
    have hT1 : player.audioData.totalFrames * 1 ≤ player.audioData.totalFrames * c :=
      Nat.mul_le_mul_left _ hc
    have hc1 : 1 * c ≤ R * c := Nat.mul_le_mul_right c hR
    have hk : 0 < min R (player.audioData.totalFrames - player.audioData.currentFrame) := by
      omega
    obtain ⟨last, h⟩ := WavPlayerCpp.audioCallback_copy_cpp player output R c hch hle (by omega)
      hbuf hmem hout1 houtmem (by omega) hk
    refine ⟨last, h, ?_⟩
    have h1 : min R (player.audioData.totalFrames - player.audioData.currentFrame) * c
        ≤ (player.audioData.totalFrames - player.audioData.currentFrame) * c :=
      Nat.mul_le_mul_right c (Nat.min_le_right _ _)
    have h2 : player.audioData.currentFrame * c
        + (player.audioData.totalFrames - player.audioData.currentFrame) * c
        = player.audioData.totalFrames * c := by
      rw [← Nat.add_mul]; congr 1; omega
    rw [List.length_take, List.length_drop]; omega
  · intro audioData output R c T u hch hc htot hcur hle hbuf hmem hblock hR havail
    obtain ⟨hR64, hout, houtmem⟩ := hblock
    unfold InMemory at hmem houtmem
    have hout1 : output.length = R * c := by exact_mod_cast hout
    have hT1 : T * 1 ≤ T * c := Nat.mul_le_mul_left _ hc
    have hc1 : 1 * c ≤ R * c := Nat.mul_le_mul_right c hR
    have hk : 0 < min R (T - u) := by omega
    refine ⟨WavPlayerExample.audioCallback_copy_c audioData output R c T u hch htot hcur hle
      (by omega) hbuf hmem hR64 hout1 houtmem (by omega) hk, ?_⟩
    have h1 : min R (T - u) * c ≤ (T - u) * c := Nat.mul_le_mul_right c (Nat.min_le_right _ _)
    have h2 : u * c + (T - u) * c = T * c := by
      rw [← Nat.add_mul]; congr 1; omega
    rw [List.length_take, List.length_drop]; omega

/-- Witness for C1: the stereo example, asked for four frames while three are available:
the tick consumes the last frame, pads one frame and continues, in both players. -/
theorem tick_copies_available_frames_then_zero_fills_witness :
    (∃ last,
      WavPlayerCpp.audioCallback WavPlayerCpp.stereo [9, 9, 9, 9, 9, 9, 9, 9] 4 =
        some (.paContinue,
          { audioData := { WavPlayerCpp.stereo.audioData with
              currentFrame := WavPlayerCpp.stereo.audioData.currentFrame
                + min 4 (WavPlayerCpp.stereo.audioData.totalFrames
                  - WavPlayerCpp.stereo.audioData.currentFrame) },
            lastReported := last },
          (WavPlayerCpp.stereo.audioData.samples.drop
              (WavPlayerCpp.stereo.audioData.currentFrame * 2)).take
              (min 4 (WavPlayerCpp.stereo.audioData.totalFrames
                - WavPlayerCpp.stereo.audioData.currentFrame) * 2)
            ++ List.replicate
              ((4 - min 4 (WavPlayerCpp.stereo.audioData.totalFrames
                - WavPlayerCpp.stereo.audioData.currentFrame)) * 2) 0)
      ∧ ((WavPlayerCpp.stereo.audioData.samples.drop
            (WavPlayerCpp.stereo.audioData.currentFrame * 2)).take
          (min 4 (WavPlayerCpp.stereo.audioData.totalFrames
            - WavPlayerCpp.stereo.audioData.currentFrame) * 2)).length
        = min 4 (WavPlayerCpp.stereo.audioData.totalFrames
            - WavPlayerCpp.stereo.audioData.currentFrame) * 2)
    ∧ (WavPlayerExample.audioCallback WavPlayerExample.stereo [9, 9, 9, 9, 9, 9, 9, 9] 4 =
        some (.paContinue,
          { WavPlayerExample.stereo with currentFrame := ((0 + min 4 (3 - 0) : Nat) : Int) },
          (WavPlayerExample.stereo.samples.drop (0 * 2)).take (min 4 (3 - 0) * 2)
            ++ List.replicate ((4 - min 4 (3 - 0)) * 2) 0)
      ∧ ((WavPlayerExample.stereo.samples.drop (0 * 2)).take (min 4 (3 - 0) * 2)).length
        = min 4 (3 - 0) * 2) :=
  ⟨tick_copies_available_frames_then_zero_fills.1 WavPlayerCpp.stereo
      [9, 9, 9, 9, 9, 9, 9, 9] 4 2 (by decide) (by decide) (by decide) (by decide) (by decide)
      (by decide) (by decide) (by decide),
    tick_copies_available_frames_then_zero_fills.2 WavPlayerExample.stereo
      [9, 9, 9, 9, 9, 9, 9, 9] 4 2 3 0 (by decide) (by decide) (by decide) (by decide)
      (by decide) (by decide) (by decide) (by decide) (by decide) (by decide)⟩

/-- C3: in a drained state (`currentFrame = totalFrames`) a tick signals "complete" for
every requested frame count `R`, writes zero to every sample of its output block (the
`R * channelCount` samples PortAudio hands over), and leaves the whole playback state as
it was; hence any sequence of further ticks gives "complete", an all-zero block and the
same state each time.  First two conjuncts: the C++ player; last two: the C player. -/
theorem drained_tick_completes_with_silence :
    (∀ (player : WavPlayerCpp.WAVPlayer) (output : List Int) (R : Nat),
      player.audioData.currentFrame = player.audioData.totalFrames →
      OutputBlock player.audioData.channels R output →
      WavPlayerCpp.audioCallback player output R
        = some (.paComplete, player, List.replicate output.length 0))
    ∧ (∀ (player : WavPlayerCpp.WAVPlayer) (ticks : List (Nat × List Int)),
      player.audioData.currentFrame = player.audioData.totalFrames →
      (∀ t ∈ ticks, OutputBlock player.audioData.channels t.1 t.2) →
      WavPlayerCpp.runTicks player ticks
        = some (player,
            ticks.map fun t => (.paComplete, player, List.replicate t.2.length 0)))
    ∧ (∀ (audioData : WavPlayerExample.AudioData) (output : List Int) (R : Nat),
      audioData.currentFrame = audioData.totalFrames →
      OutputBlock audioData.channels R output →
      WavPlayerExample.audioCallback audioData output R
        = some (.paComplete, audioData, List.replicate output.length 0))
    ∧ (∀ (audioData : WavPlayerExample.AudioData) (ticks : List (Nat × List Int)),
      audioData.currentFrame = audioData.totalFrames →
      (∀ t ∈ ticks, OutputBlock audioData.channels t.1 t.2) →
      WavPlayerExample.runTicks audioData ticks
        = some (audioData,
            ticks.map fun t => (.paComplete, audioData, List.replicate t.2.length 0))) :=
  ⟨fun player output R hcur hblock =>
      WavPlayerCpp.audioCallback_drained_block_cpp player output R hcur hblock,
    fun player ticks hcur hblocks => WavPlayerCpp.runTicks_drained_cpp player hcur ticks hblocks,
    fun audioData output R hcur hblock =>
      WavPlayerExample.audioCallback_drained_block_c audioData output R hcur hblock,
    fun audioData ticks hcur hblocks =>
      WavPlayerExample.runTicks_drained_c audioData hcur ticks hblocks⟩

/-- Witness for C3: the drained stereo example polled for two frames, in both players. -/
theorem drained_tick_completes_with_silence_witness :
    WavPlayerCpp.audioCallback WavPlayerCpp.stereoDrained [9, 9, 9, 9] 2
        = some (.paComplete, WavPlayerCpp.stereoDrained, List.replicate [9, 9, 9, 9].length 0)
    ∧ WavPlayerExample.audioCallback WavPlayerExample.stereoDrained [9, 9, 9, 9] 2
        = some (.paComplete, WavPlayerExample.stereoDrained,
            List.replicate [9, 9, 9, 9].length 0) :=
  ⟨drained_tick_completes_with_silence.1 WavPlayerCpp.stereoDrained [9, 9, 9, 9] 2
      (by decide) (by decide),
    drained_tick_completes_with_silence.2.2.1 WavPlayerExample.stereoDrained [9, 9, 9, 9] 2
      (by decide) (by decide)⟩

/-- C4, as the code has it: a tick that requests `R = 0` frames returns "complete", not
"continue"; it leaves the playback state (the cursor with it) unchanged and writes no
output sample.  First conjunct: every state of the C++ player; second conjunct: every
state of the C player whose `totalFrames - currentFrame` is a value of type `long`. -/
theorem zero_frame_tick_is_complete_and_writes_nothing :
    (∀ (player : WavPlayerCpp.WAVPlayer) (output : List Int),
      WavPlayerCpp.audioCallback player output 0 = some (.paComplete, player, output))
    ∧ (∀ (audioData : WavPlayerExample.AudioData) (output : List Int),
      -2 ^ 63 ≤ audioData.totalFrames - audioData.currentFrame →
      audioData.totalFrames - audioData.currentFrame < 2 ^ 63 →
      WavPlayerExample.audioCallback audioData output 0
        = some (.paComplete, audioData, output)) :=
  ⟨fun player output => WavPlayerCpp.audioCallback_zero_cpp player output,
    fun audioData output hlo hhi => WavPlayerExample.audioCallback_zero_c audioData output hlo hhi⟩

/-- Witness for C4: the stereo example polled for zero frames, in both players. -/
theorem zero_frame_tick_is_complete_and_writes_nothing_witness :
    WavPlayerCpp.audioCallback WavPlayerCpp.stereo [9, 9] 0
        = some (.paComplete, WavPlayerCpp.stereo, [9, 9])
    ∧ WavPlayerExample.audioCallback WavPlayerExample.stereo [9, 9] 0
        = some (.paComplete, WavPlayerExample.stereo, [9, 9]) :=
  ⟨zero_frame_tick_is_complete_and_writes_nothing.1 WavPlayerCpp.stereo [9, 9],
    zero_frame_tick_is_complete_and_writes_nothing.2 WavPlayerExample.stereo [9, 9]
      (by decide) (by decide)⟩

/-- Counterexample to C4 as stated: on the stereo example at the start of playback, with
frames still available, a tick that requests zero frames does not return "continue", in
either player. -/
theorem zero_frame_tick_does_not_continue :
    (¬ ∃ next block,
        WavPlayerCpp.audioCallback WavPlayerCpp.stereo [] 0 = some (.paContinue, next, block))
    ∧ (¬ ∃ next block,
        WavPlayerExample.audioCallback WavPlayerExample.stereo [] 0
          = some (.paContinue, next, block)) := by
  have h1 : WavPlayerCpp.audioCallback WavPlayerCpp.stereo [] 0
      = some (.paComplete, WavPlayerCpp.stereo, []) := by decide
  have h2 : WavPlayerExample.audioCallback WavPlayerExample.stereo [] 0
      = some (.paComplete, WavPlayerExample.stereo, []) := by decide
  constructor
  · rintro ⟨next, block, h⟩
    rw [h1] at h
    simp at h
  · rintro ⟨next, block, h⟩
    rw [h2] at h
    simp at h

/-- C5, as the code has it: the decoder reads the four fields of an encoded header as
little-endian two's-complement values: channel count and bits per sample as signed 16-bit
values, data size as a signed 32-bit value, sample rate as an unsigned 32-bit value in the
C++ player and a signed one in the C player.  Hence encoding `(c, r, b, d)` and decoding
gives back `(c, r, b, d)` when `c, b < 2 ^ 15` and `d < 2 ^ 31` (and `r < 2 ^ 31` in the C
player). -/
theorem decoded_fields_are_signed_little_endian (base : List Byte) (c r b d : Nat)
    (hlen : base.length = 44) (hc : c < 2 ^ 16) (hr : r < 2 ^ 32) (hb : b < 2 ^ 16)
    (hd : d < 2 ^ 32) :
    WavPlayerCpp.headerFields (specEncodeFields base c r b d)
        = { channels := toInt16 c, sampleRate := r, bitsPerSample := toInt16 b,
            dataSize := toInt32 d }
    ∧ WavPlayerExample.headerFields (specEncodeFields base c r b d)
        = { channels := toInt16 c, sampleRate := toInt32 r, bitsPerSample := toInt16 b,
            dataSize := toInt32 d }
    ∧ (c < 2 ^ 15 → b < 2 ^ 15 → d < 2 ^ 31 →
        WavPlayerCpp.headerFields (specEncodeFields base c r b d)
          = { channels := c, sampleRate := r, bitsPerSample := b, dataSize := d })
    ∧ (c < 2 ^ 15 → b < 2 ^ 15 → d < 2 ^ 31 → r < 2 ^ 31 →
        WavPlayerExample.headerFields (specEncodeFields base c r b d)
          = { channels := c, sampleRate := r, bitsPerSample := b, dataSize := d }) := by
  obtain ⟨h1, h2, h3, h4⟩ := bits_specEncodeFields base c r b d hlen hc hr hb hd
  have e1 : WavPlayerCpp.headerFields (specEncodeFields base c r b d)
      = { channels := toInt16 c, sampleRate := r, bitsPerSample := toInt16 b,
          dataSize := toInt32 d } := by
    unfold WavPlayerCpp.headerFields
    rw [h1, h2, h3, h4, toInt32_mod r hr]
  have e2 : WavPlayerExample.headerFields (specEncodeFields base c r b d)
      = { channels := toInt16 c, sampleRate := toInt32 r, bitsPerSample := toInt16 b,
          dataSize := toInt32 d } := by
    unfold WavPlayerExample.headerFields
    rw [h1, h2, h3, h4]
  refine ⟨e1, e2, ?_, ?_⟩
  · intro hc' hb' hd'
    rw [e1, toInt16_small c hc', toInt16_small b hb', toInt32_small d hd']
  · intro hc' hb' hd' hr'
    rw [e2, toInt16_small c hc', toInt16_small b hb', toInt32_small d hd', toInt32_small r hr']

/-- Witness for C5: the fields of the three-frame stereo header. -/
theorem decoded_fields_are_signed_little_endian_witness :
    WavPlayerCpp.headerFields (specEncodeFields blankHeader 2 44100 16 12)
        = { channels := toInt16 2, sampleRate := 44100, bitsPerSample := toInt16 16,
            dataSize := toInt32 12 }
    ∧ WavPlayerExample.headerFields (specEncodeFields blankHeader 2 44100 16 12)
        = { channels := toInt16 2, sampleRate := toInt32 44100, bitsPerSample := toInt16 16,
            dataSize := toInt32 12 } :=
  ⟨(decoded_fields_are_signed_little_endian blankHeader 2 44100 16 12 (by decide) (by decide)
      (by decide) (by decide) (by decide)).1,
    (decoded_fields_are_signed_little_endian blankHeader 2 44100 16 12 (by decide) (by decide)
      (by decide) (by decide) (by decide)).2.1⟩

/-- Counterexample to C5 as stated: a header that encodes the channel count 65535
(`0xFFFF`, below `2 ^ 16`) does not decode to `(65535, 44100, 16, 8)`: both players read
the channel count `-1`. -/
theorem channel_count_65535_decodes_as_minus_one :
    WavPlayerCpp.headerFields (specEncodeFields blankHeader 65535 44100 16 8)
        ≠ { channels := 65535, sampleRate := 44100, bitsPerSample := 16, dataSize := 8 }
    ∧ (WavPlayerCpp.headerFields (specEncodeFields blankHeader 65535 44100 16 8)).channels = -1
    ∧ WavPlayerExample.headerFields (specEncodeFields blankHeader 65535 44100 16 8)
        ≠ { channels := 65535, sampleRate := 44100, bitsPerSample := 16, dataSize := 8 }
    ∧ (WavPlayerExample.headerFields (specEncodeFields blankHeader 65535 44100 16 8)).channels
        = -1 := by
  decide

/-- C6: a file of at least 44 bytes whose bytes 0-3 are not `"RIFF"` or whose bytes 8-11
are not `"WAVE"` fails to load at the tag test (`InvalidContainer`) in both players,
whatever its other header fields are, and the audio data (sample buffer included) stays
as it was: no buffer is produced. -/
theorem wrong_tags_fail_with_InvalidContainer (audioDataCpp : WavPlayerCpp.AudioData)
    (audioDataC : WavPlayerExample.AudioData) (bytes : List Byte) (fresh : Nat → Byte)
    (h44 : 44 ≤ bytes.length)
    (htag : bytes.take 4 ≠ RIFF ∨ (bytes.drop 8).take 4 ≠ WAVE) :
    WavPlayerCpp.loadWAV audioDataCpp (some bytes) = some (.InvalidContainer, audioDataCpp)
    ∧ WavPlayerExample.loadWAV audioDataC (some bytes) fresh
        = some (.InvalidContainer, audioDataC) :=
  ⟨WavPlayerCpp.loadWAV_invalid_cpp audioDataCpp bytes h44 htag,
    WavPlayerExample.loadWAV_invalid_c audioDataC bytes fresh h44 htag⟩

/-- Witness for C6: the file with the tag `"RIFX"`, 16 bits per sample and a channel
count of zero. -/
theorem wrong_tags_fail_with_InvalidContainer_witness :
    WavPlayerCpp.loadWAV WavPlayerCpp.unloaded (some rifxFile)
        = some (.InvalidContainer, WavPlayerCpp.unloaded)
    ∧ WavPlayerExample.loadWAV WavPlayerExample.unloaded (some rifxFile) (fun _ => 0)
        = some (.InvalidContainer, WavPlayerExample.unloaded) :=
  wrong_tags_fail_with_InvalidContainer WavPlayerCpp.unloaded WavPlayerExample.unloaded rifxFile
    (fun _ => 0) (by decide) (by decide)

/-- C7: a file of at least 44 bytes with the tags `"RIFF"` and `"WAVE"` whose bits per
sample field (offset 34) differs from 16 fails to load at the bit-depth test
(`UnsupportedBitDepth`) in both players: the load reads nothing past the header (the
outcome is that of the header alone) and leaves `totalFrames`, `currentFrame` and the
sample buffer as they were. -/
theorem other_bit_depth_fails_with_UnsupportedBitDepth (audioDataCpp : WavPlayerCpp.AudioData)
    (audioDataC : WavPlayerExample.AudioData) (bytes : List Byte) (fresh : Nat → Byte)
    (h44 : 44 ≤ bytes.length) (hriff : bytes.take 4 = RIFF)
    (hwave : (bytes.drop 8).take 4 = WAVE) (hbits : bits16 bytes 34 ≠ 16) :
    (∃ after,
      WavPlayerCpp.loadWAV audioDataCpp (some bytes)
          = some (.UnsupportedBitDepth (toInt16 (bits16 bytes 34)), after)
        ∧ WavPlayerCpp.loadWAV audioDataCpp (some (bytes.take 44))
          = WavPlayerCpp.loadWAV audioDataCpp (some bytes)
        ∧ after.totalFrames = audioDataCpp.totalFrames
        ∧ after.currentFrame = audioDataCpp.currentFrame
        ∧ after.samples = audioDataCpp.samples)
    ∧ (∃ after,
      WavPlayerExample.loadWAV audioDataC (some bytes) fresh
          = some (.UnsupportedBitDepth (toInt16 (bits16 bytes 34)), after)
        ∧ WavPlayerExample.loadWAV audioDataC (some (bytes.take 44)) fresh
          = WavPlayerExample.loadWAV audioDataC (some bytes) fresh
        ∧ after.totalFrames = audioDataC.totalFrames
        ∧ after.currentFrame = audioDataC.currentFrame
        ∧ after.samples = audioDataC.samples) := by
  have htag : ¬ (bytes.take 4 ≠ RIFF ∨ (bytes.drop 8).take 4 ≠ WAVE) := by
    rw [hriff, hwave]; simp
  have h34 : bits16 (bytes.take 44) 34 = bits16 bytes 34 := by
    unfold bits16
    rw [byteAt_take _ _ _ (by omega), byteAt_take _ _ _ (by omega)]
  have hne : toInt16 (bits16 bytes 34) ≠ 16 := fun h =>
    hbits ((toInt16_eq_16 _ (bits16_lt bytes 34)).mp h)
  have hlen : (bytes.take 44).length = 44 := by rw [List.length_take]; omega
  have htt : (bytes.take 44).take 44 = bytes.take 44 := by rw [List.take_take]; rfl
  have htag' : ¬ ((bytes.take 44).take 4 ≠ RIFF ∨ ((bytes.take 44).drop 8).take 4 ≠ WAVE) := by
    have e1 : (bytes.take 44).take 4 = bytes.take 4 := by rw [List.take_take]; congr 1
    have e2 : ((bytes.take 44).drop 8).take 4 = (bytes.drop 8).take 4 := by
      rw [List.drop_take, List.take_take]; congr 1
    rw [e1, e2]; exact htag
  constructor
  · have hb : (WavPlayerCpp.headerFields (bytes.take 44)).bitsPerSample
        = toInt16 (bits16 bytes 34) := by
      unfold WavPlayerCpp.headerFields; rw [h34]
    have h := WavPlayerCpp.loadWAV_bitDepth_cpp audioDataCpp bytes h44 htag (by rw [hb]; exact hne)
    have h' := WavPlayerCpp.loadWAV_bitDepth_cpp audioDataCpp (bytes.take 44) (by omega) htag'
      (by rw [htt, hb]; exact hne)
    rw [hb] at h
    rw [htt] at h'
    exact ⟨_, h, by rw [h', h, hb], rfl, rfl, rfl⟩
  · have hb : (WavPlayerExample.headerFields (bytes.take 44)).bitsPerSample
        = toInt16 (bits16 bytes 34) := by
      unfold WavPlayerExample.headerFields; rw [h34]
    have h := WavPlayerExample.loadWAV_bitDepth_c audioDataC bytes fresh h44 htag
      (by rw [hb]; exact hne)
    have h' := WavPlayerExample.loadWAV_bitDepth_c audioDataC (bytes.take 44) fresh (by omega)
      htag' (by rw [htt, hb]; exact hne)
    rw [hb] at h
    rw [htt] at h'
    exact ⟨_, h, by rw [h', h, hb], rfl, rfl, rfl⟩

/-- Witness for C7: the 8-bit mono file, loaded into the stereo example's audio data. -/
theorem other_bit_depth_fails_with_UnsupportedBitDepth_witness :
    (∃ after,
      WavPlayerCpp.loadWAV WavPlayerCpp.stereo.audioData (some eightBitFile)
          = some (.UnsupportedBitDepth (toInt16 (bits16 eightBitFile 34)), after)
        ∧ WavPlayerCpp.loadWAV WavPlayerCpp.stereo.audioData (some (eightBitFile.take 44))
          = WavPlayerCpp.loadWAV WavPlayerCpp.stereo.audioData (some eightBitFile)
        ∧ after.totalFrames = WavPlayerCpp.stereo.audioData.totalFrames
        ∧ after.currentFrame = WavPlayerCpp.stereo.audioData.currentFrame
        ∧ after.samples = WavPlayerCpp.stereo.audioData.samples)
    ∧ (∃ after,
      WavPlayerExample.loadWAV WavPlayerExample.stereo (some eightBitFile) (fun _ => 0)
          = some (.UnsupportedBitDepth (toInt16 (bits16 eightBitFile 34)), after)
        ∧ WavPlayerExample.loadWAV WavPlayerExample.stereo (some (eightBitFile.take 44))
            (fun _ => 0)
          = WavPlayerExample.loadWAV WavPlayerExample.stereo (some eightBitFile) (fun _ => 0)
        ∧ after.totalFrames = WavPlayerExample.stereo.totalFrames
        ∧ after.currentFrame = WavPlayerExample.stereo.currentFrame
        ∧ after.samples = WavPlayerExample.stereo.samples) :=
  other_bit_depth_fails_with_UnsupportedBitDepth WavPlayerCpp.stereo.audioData
    WavPlayerExample.stereo eightBitFile (fun _ => 0) (by decide) (by decide) (by decide)
    (by decide)

/-- C8, as the code has it: after every successful decode with a channel count `c ≥ 1`
the sample buffer holds `dataSize / 2` samples and `totalFrames = sampleCount / c`
(integer division), so `totalFrames * c ≤ sampleCount`; the `sampleCount mod c` trailing
samples that do not make a whole frame stay in the buffer, past the `totalFrames * c`
samples of whole frames.  First conjunct: the C++ player; second conjunct: the C player. -/
theorem decoded_frames_are_whole_and_trailing_samples_are_kept :
    (∀ (audioData loaded : WavPlayerCpp.AudioData) (bytes : List Byte),
      WavPlayerCpp.loadWAV audioData (some bytes) = some (.Loaded, loaded) →
      1 ≤ loaded.channels →
      ∃ c : Nat, loaded.channels = c
        ∧ loaded.samples.length
          = (Int.tdiv (WavPlayerCpp.headerFields (bytes.take 44)).dataSize 2).toNat
        ∧ loaded.totalFrames = loaded.samples.length / c
        ∧ loaded.totalFrames * c ≤ loaded.samples.length
        ∧ loaded.samples.length - loaded.totalFrames * c = loaded.samples.length % c)
    ∧ (∀ (audioData loaded : WavPlayerExample.AudioData) (bytes : List Byte)
        (fresh : Nat → Byte),
      WavPlayerExample.loadWAV audioData (some bytes) fresh = some (.Loaded, loaded) →
      1 ≤ loaded.channels →
      ∃ c : Nat, loaded.channels = c
        ∧ loaded.samples.length
          = (WavPlayerExample.headerFields (bytes.take 44)).dataSize.toNat / 2
        ∧ loaded.totalFrames = ((loaded.samples.length / c : Nat) : Int)
        ∧ loaded.samples.length / c * c ≤ loaded.samples.length
        ∧ loaded.samples.length - loaded.samples.length / c * c
          = loaded.samples.length % c) := by
  constructor
  · intro audioData loaded bytes hload hch
    obtain ⟨bytes', hfile, -, -, -, hcount, hchan, -, htotal, -, hlen⟩ :=
      WavPlayerCpp.loadWAV_loaded_cpp audioData loaded (some bytes) hload
    obtain rfl : bytes = bytes' := Option.some.inj hfile
    rw [hchan] at hch
    obtain ⟨n, k, hn, hk, hk1, hbound, hdiv⟩ := tdiv_frames _ _ hch hcount
    have hrange := (toInt32_range (bits32 (bytes.take 44) 40)).2
    have hd : (WavPlayerCpp.headerFields (bytes.take 44)).dataSize
        = toInt32 (bits32 (bytes.take 44) 40) := rfl
    have hn64 : n / k < 2 ^ 64 := by
      have : n / k ≤ n := Nat.div_le_self n k
      rw [hd] at hbound
      omega
    have hlen' : loaded.samples.length = n := by rw [hlen, hn, Int.toNat_ofNat]
    have htotal' : loaded.totalFrames = n / k := by
      rw [htotal, hdiv, toSizeT_natCast _ hn64]
    have hmod := Nat.div_add_mod n k
    have hle : n / k * k ≤ n := Nat.div_mul_le_self n k
    refine ⟨k, by rw [hchan, hk], hlen, by rw [htotal', hlen'], by rw [htotal', hlen']; exact hle,
      ?_⟩
    rw [htotal', hlen']
    have : k * (n / k) = n / k * k := Nat.mul_comm _ _
    omega
  · intro audioData loaded bytes fresh hload hch
    obtain ⟨bytes', hfile, -, -, -, hd0, hchan, -, htotal, -, hlen⟩ :=
      WavPlayerExample.loadWAV_loaded_c audioData loaded (some bytes) fresh hload
    obtain rfl : bytes = bytes' := Option.some.inj hfile
    rw [hchan] at hch
    have hcount : 0 ≤ Int.tdiv (WavPlayerExample.headerFields (bytes.take 44)).dataSize 2 :=
      Int.tdiv_nonneg hd0 (by decide)
    obtain ⟨n, k, hn, hk, hk1, -, hdiv⟩ := tdiv_frames _ _ hch hcount
    have hn' : (WavPlayerExample.headerFields (bytes.take 44)).dataSize.toNat / 2 = n := by
      rw [Int.tdiv_eq_ediv hd0 (by decide)] at hn
      omega
    have hlen' : loaded.samples.length = n := by rw [hlen, hn']
    have hmod := Nat.div_add_mod n k
    have hle : n / k * k ≤ n := Nat.div_mul_le_self n k
    refine ⟨k, by rw [hchan, hk], hlen, by rw [htotal, hdiv, hlen'], by rw [hlen']; exact hle, ?_⟩
    rw [hlen']
    have : k * (n / k) = n / k * k := Nat.mul_comm _ _
    omega

/-- Witness for C8: the three-frame stereo file and the audio data it decodes to, in both
players. -/
theorem decoded_frames_are_whole_and_trailing_samples_are_kept_witness :
    (∃ c : Nat, WavPlayerCpp.stereoLoaded.channels = c
        ∧ WavPlayerCpp.stereoLoaded.samples.length
          = (Int.tdiv (WavPlayerCpp.headerFields (stereoFile.take 44)).dataSize 2).toNat
        ∧ WavPlayerCpp.stereoLoaded.totalFrames = WavPlayerCpp.stereoLoaded.samples.length / c
        ∧ WavPlayerCpp.stereoLoaded.totalFrames * c ≤ WavPlayerCpp.stereoLoaded.samples.length
        ∧ WavPlayerCpp.stereoLoaded.samples.length - WavPlayerCpp.stereoLoaded.totalFrames * c
          = WavPlayerCpp.stereoLoaded.samples.length % c)
    ∧ (∃ c : Nat, WavPlayerExample.stereoLoaded.channels = c
        ∧ WavPlayerExample.stereoLoaded.samples.length
          = (WavPlayerExample.headerFields (stereoFile.take 44)).dataSize.toNat / 2
        ∧ WavPlayerExample.stereoLoaded.totalFrames
          = ((WavPlayerExample.stereoLoaded.samples.length / c : Nat) : Int)
        ∧ WavPlayerExample.stereoLoaded.samples.length / c * c
          ≤ WavPlayerExample.stereoLoaded.samples.length
        ∧ WavPlayerExample.stereoLoaded.samples.length
            - WavPlayerExample.stereoLoaded.samples.length / c * c
          = WavPlayerExample.stereoLoaded.samples.length % c) :=
  ⟨decoded_frames_are_whole_and_trailing_samples_are_kept.1 WavPlayerCpp.unloaded
      WavPlayerCpp.stereoLoaded stereoFile (by decide) (by decide),
    decoded_frames_are_whole_and_trailing_samples_are_kept.2 WavPlayerExample.unloaded
      WavPlayerExample.stereoLoaded stereoFile (fun _ => 0) (by decide) (by decide)⟩

/-- Counterexample to C8 as stated: the stereo file with 6 bytes of data decodes
successfully into a buffer of 3 samples, which is not a multiple of the 2 channels: the
third sample, half a frame, is kept (and `totalFrames` is 1), in both players. -/
theorem half_frame_stays_in_the_buffer :
    (∃ loaded, WavPlayerCpp.loadWAV WavPlayerCpp.unloaded (some halfFrameFile)
          = some (.Loaded, loaded)
        ∧ loaded.channels = 2 ∧ loaded.totalFrames = 1 ∧ loaded.samples = [1, 2, 3]
        ∧ ¬ (2 ∣ loaded.samples.length))
    ∧ (∃ loaded, WavPlayerExample.loadWAV WavPlayerExample.unloaded (some halfFrameFile)
            (fun _ => 0)
          = some (.Loaded, loaded)
        ∧ loaded.channels = 2 ∧ loaded.totalFrames = 1 ∧ loaded.samples = [1, 2, 3]
        ∧ ¬ (2 ∣ loaded.samples.length)) :=
  ⟨⟨⟨[1, 2, 3], 1, 0, 2, 44100⟩, by decide, by decide, by decide, by decide, by decide⟩,
    ⟨⟨[1, 2, 3], 1, 0, 2, 44100⟩, by decide, by decide, by decide, by decide, by decide⟩⟩

/-- C9, as the code has it: in every state reachable by ticks (of arbitrary requested
frame counts and output blocks) from a successful decode that leaves `totalFrames ≥ 0`,
`0 ≤ currentFrame ≤ totalFrames` holds, no further tick decreases `currentFrame`, and
once `currentFrame = totalFrames` a tick changes nothing.  The condition on
`totalFrames` always holds in the C++ player, where the field is unsigned (first
conjunct); it is a hypothesis in the C player (second conjunct). -/
theorem cursor_stays_within_total_frames :
    (∀ (audioData loaded : WavPlayerCpp.AudioData) (file : Option (List Byte)) (last : Nat)
        (ticks : List (Nat × List Int)) (final : WavPlayerCpp.WAVPlayer)
        (trace : List (PaStreamCallbackResult × WavPlayerCpp.WAVPlayer × List Int)),
      WavPlayerCpp.loadWAV audioData file = some (.Loaded, loaded) →
      WavPlayerCpp.runTicks ⟨loaded, last⟩ ticks = some (final, trace) →
      loaded.currentFrame = 0
        ∧ final.audioData.totalFrames = loaded.totalFrames
        ∧ final.audioData.currentFrame ≤ final.audioData.totalFrames
        ∧ ∀ (output : List Int) (R : Nat) (result : PaStreamCallbackResult)
            (next : WavPlayerCpp.WAVPlayer) (block : List Int),
          WavPlayerCpp.audioCallback final output R = some (result, next, block) →
          final.audioData.currentFrame ≤ next.audioData.currentFrame
            ∧ next.audioData.currentFrame ≤ next.audioData.totalFrames
            ∧ (final.audioData.currentFrame = final.audioData.totalFrames → next = final))
    ∧ (∀ (audioData loaded : WavPlayerExample.AudioData) (file : Option (List Byte))
        (fresh : Nat → Byte) (ticks : List (Nat × List Int))
        (final : WavPlayerExample.AudioData)
        (trace : List (PaStreamCallbackResult × WavPlayerExample.AudioData × List Int)),
      WavPlayerExample.loadWAV audioData file fresh = some (.Loaded, loaded) →
      0 ≤ loaded.totalFrames →
      WavPlayerExample.runTicks loaded ticks = some (final, trace) →
      loaded.currentFrame = 0
        ∧ final.totalFrames = loaded.totalFrames
        ∧ 0 ≤ final.currentFrame ∧ final.currentFrame ≤ final.totalFrames
        ∧ ∀ (output : List Int) (R : Nat) (result : PaStreamCallbackResult)
            (next : WavPlayerExample.AudioData) (block : List Int),
          WavPlayerExample.audioCallback final output R = some (result, next, block) →
          final.currentFrame ≤ next.currentFrame
            ∧ next.currentFrame ≤ next.totalFrames
            ∧ (final.currentFrame = final.totalFrames → next = final)) := by
  constructor
  · intro audioData loaded file last ticks final trace hload hrun
    obtain ⟨bytes, -, -, -, -, -, -, -, htotal, hcur, -⟩ :=
      WavPlayerCpp.loadWAV_loaded_cpp audioData loaded file hload
    have hT : loaded.totalFrames < 2 ^ 64 := by rw [htotal]; exact toSizeT_lt _
    obtain ⟨i1, i2, i3⟩ := WavPlayerCpp.runTicks_cursor_cpp ticks ⟨loaded, last⟩ final trace
      (by simp only [hcur]; exact Nat.zero_le _) hT hrun
    refine ⟨hcur, i1, i3, ?_⟩
    intro output R result next block htick
    have hT' : final.audioData.totalFrames < 2 ^ 64 := by rw [i1]; exact hT
    obtain ⟨hnext, hfix⟩ := WavPlayerCpp.audioCallback_cursor_cpp final next output block R result
      i3 hT' htick
    have h1 : next.audioData.totalFrames = final.audioData.totalFrames := by rw [hnext]
    have h2 : next.audioData.currentFrame = final.audioData.currentFrame
        + min R (final.audioData.totalFrames - final.audioData.currentFrame) := by
      rw [hnext]
    exact ⟨by omega, by omega, hfix⟩
  · intro audioData loaded file fresh ticks final trace hload h0 hrun
    obtain ⟨bytes, -, -, -, -, -, -, -, htotal, hcur, -⟩ :=
      WavPlayerExample.loadWAV_loaded_c audioData loaded file fresh hload
    have hT : loaded.totalFrames < 2 ^ 63 := by
      have h1 := natAbs_tdiv_le (WavPlayerExample.headerFields (bytes.take 44)).dataSize
        ((WavPlayerExample.headerFields (bytes.take 44)).channels * 2)
      have h2 := toInt32_range (bits32 (bytes.take 44) 40)
      have hd : (WavPlayerExample.headerFields (bytes.take 44)).dataSize
          = toInt32 (bits32 (bytes.take 44) 40) := rfl
      rw [← htotal] at h1
      rw [hd] at h1
      omega
    obtain ⟨i1, i2, i3⟩ := WavPlayerExample.runTicks_cursor_c ticks loaded final trace
      (by rw [hcur]) (by rw [hcur]; exact h0) hT hrun
    have hfin0 : 0 ≤ final.currentFrame := by rw [hcur] at i2; exact i2
    refine ⟨hcur, i1, hfin0, i3, ?_⟩
    intro output R result next block htick
    obtain ⟨u, hu⟩ := Int.eq_ofNat_of_zero_le hfin0
    obtain ⟨T, hT'⟩ := Int.eq_ofNat_of_zero_le (Int.le_trans hfin0 i3)
    obtain ⟨hnext, hfix⟩ := WavPlayerExample.audioCallback_cursor_c final next output block R T u
      result hT' hu (by omega) (by omega) htick
    have h1 : next.totalFrames = final.totalFrames := by rw [hnext]
    have h2 : next.currentFrame = ((u + min R (T - u) : Nat) : Int) := by rw [hnext]
    exact ⟨by omega, by omega, fun heq => hfix (by omega)⟩

/-- Witness for C9: the three-frame stereo file, decoded and ticked once for two frames,
in both players. -/
theorem cursor_stays_within_total_frames_witness :
    (({ audioData := { WavPlayerCpp.stereoLoaded with currentFrame := 2 }, lastReported := 0 }
        : WavPlayerCpp.WAVPlayer).audioData.currentFrame
      ≤ ({ audioData := { WavPlayerCpp.stereoLoaded with currentFrame := 2 }, lastReported := 0 }
        : WavPlayerCpp.WAVPlayer).audioData.totalFrames)
    ∧ (0 ≤ ({ WavPlayerExample.stereoLoaded with currentFrame := 2 }
          : WavPlayerExample.AudioData).currentFrame
      ∧ ({ WavPlayerExample.stereoLoaded with currentFrame := 2 }
          : WavPlayerExample.AudioData).currentFrame
        ≤ ({ WavPlayerExample.stereoLoaded with currentFrame := 2 }
          : WavPlayerExample.AudioData).totalFrames) :=
  ⟨(cursor_stays_within_total_frames.1 WavPlayerCpp.unloaded WavPlayerCpp.stereoLoaded
      (some stereoFile) 0 [(2, [9, 9, 9, 9])]
      { audioData := { WavPlayerCpp.stereoLoaded with currentFrame := 2 }, lastReported := 0 }
      [(.paContinue,
        { audioData := { WavPlayerCpp.stereoLoaded with currentFrame := 2 }, lastReported := 0 },
        [1, 2, 3, 4])]
      (by decide) (by decide)).2.2.1,
    (cursor_stays_within_total_frames.2 WavPlayerExample.unloaded WavPlayerExample.stereoLoaded
      (some stereoFile) (fun _ => 0) [(2, [9, 9, 9, 9])]
      { WavPlayerExample.stereoLoaded with currentFrame := 2 }
      [(.paContinue, { WavPlayerExample.stereoLoaded with currentFrame := 2 }, [1, 2, 3, 4])]
      (by decide) (by decide) (by decide)).2.2.1,
    (cursor_stays_within_total_frames.2 WavPlayerExample.unloaded WavPlayerExample.stereoLoaded
      (some stereoFile) (fun _ => 0) [(2, [9, 9, 9, 9])]
      { WavPlayerExample.stereoLoaded with currentFrame := 2 }
      [(.paContinue, { WavPlayerExample.stereoLoaded with currentFrame := 2 }, [1, 2, 3, 4])]
      (by decide) (by decide) (by decide)).2.2.2.1⟩

/-- Counterexample to C9 as stated: the C player decodes the file whose channel count
field is `0xFFFF` successfully, with `channels = -1` and `totalFrames = 8 / (-1 * 2) = -4`;
in that state, which the decode reaches with no tick and which a tick of zero frames
leaves as it is, `currentFrame = 0` is above `totalFrames`. -/
theorem channel_count_minus_one_puts_cursor_above_total_frames :
    ∃ loaded, WavPlayerExample.loadWAV WavPlayerExample.unloaded (some manyChannelsFile)
          (fun _ => 0)
        = some (.Loaded, loaded)
      ∧ WavPlayerExample.runTicks loaded [] = some (loaded, [])
      ∧ WavPlayerExample.runTicks loaded [(0, [])] = some (loaded, [(.paComplete, loaded, [])])
      ∧ loaded.channels = -1 ∧ loaded.totalFrames = -4 ∧ loaded.currentFrame = 0
      ∧ ¬ (0 ≤ loaded.currentFrame ∧ loaded.currentFrame ≤ loaded.totalFrames) :=
  ⟨⟨[1, 2, 3, 4], -4, 0, -1, 44100⟩, by decide, by decide, by decide, by decide, by decide,
    by decide, by decide⟩

/-- C2: from the start of a buffer of `T` frames (`currentFrame = 0`, positive channel
count `c`), ticks that each request `R > 0` frames leave the cursor at `min (n * R) T`
after `n` ticks; so the cursor equals `T` (Drained) exactly when `n ≥ ceil (T / R)`, that
is after `ceil (T / R)` ticks and after no smaller number, and then the frames the ticks
copied sum to `T` and the samples they copied are, in order, the `T * c` samples of the
buffer's frames: every source frame once.  First conjunct: the C++ player; second
conjunct: the C player. -/
theorem uniform_ticks_drain_after_ceil_ticks :
    (∀ (player : WavPlayerCpp.WAVPlayer) (R c : Nat) (outs : List (List Int)),
      player.audioData.channels = c → 0 < c →
      player.audioData.currentFrame = 0 →
      player.audioData.totalFrames * c ≤ player.audioData.samples.length →
      InMemory player.audioData.samples → 0 < R →
      (∀ o ∈ outs, OutputBlock c R o) →
      ∃ final trace,
        WavPlayerCpp.runTicks player (outs.map fun o => (R, o)) = some (final, trace)
        ∧ final.audioData.currentFrame = min (outs.length * R) player.audioData.totalFrames
        ∧ (final.audioData.currentFrame = player.audioData.totalFrames
            ↔ (player.audioData.totalFrames + R - 1) / R ≤ outs.length)
        ∧ ((player.audioData.totalFrames + R - 1) / R ≤ outs.length →
            (WavPlayerCpp.framesCopied player trace).sum = player.audioData.totalFrames
            ∧ WavPlayerCpp.samplesCopied player trace
              = player.audioData.samples.take (player.audioData.totalFrames * c)))
    ∧ (∀ (audioData : WavPlayerExample.AudioData) (R c T : Nat) (outs : List (List Int)),
      audioData.channels = c → 0 < c →
      audioData.totalFrames = T → audioData.currentFrame = 0 →
      T * c ≤ audioData.samples.length →
      InMemory audioData.samples → 0 < R →
      (∀ o ∈ outs, OutputBlock c R o) →
      ∃ final trace,
        WavPlayerExample.runTicks audioData (outs.map fun o => (R, o)) = some (final, trace)
        ∧ final.currentFrame = ((min (outs.length * R) T : Nat) : Int)
        ∧ (final.currentFrame = T ↔ (T + R - 1) / R ≤ outs.length)
        ∧ ((T + R - 1) / R ≤ outs.length →
            (WavPlayerExample.framesCopied audioData trace).sum = T
            ∧ WavPlayerExample.samplesCopied audioData trace
              = audioData.samples.take (T * c))) := by
  constructor
  · intro player R c outs hch hc hcur hbuf hmem hR hblocks
    obtain ⟨⟨samples, T, u, channels, rate⟩, last⟩ := player
    simp only at hch hcur hbuf hmem ⊢
    subst hch hcur
    unfold InMemory at hmem
    have hT1 : T * 1 ≤ T * c := Nat.mul_le_mul_left _ hc
    match outs, hblocks with
    | [], _ =>
      refine ⟨_, [], rfl, ?_, ?_, ?_⟩
      · simp
      · simp only [List.length_nil, Nat.le_zero]
        constructor
        · intro h; rw [← h]; exact Nat.div_eq_of_lt (by omega)
        · intro h
          by_contra hne
          have : 1 ≤ (T + R - 1) / R := (Nat.one_le_div_iff hR).mpr (by omega)
          omega
      · intro h
        have hT0 : T = 0 := by
          by_contra hne
          have : 1 ≤ (T + R - 1) / R := (Nat.one_le_div_iff hR).mpr (by omega)
          simp only [List.length_nil, Nat.le_zero] at h
          omega
        subst hT0
        exact ⟨rfl, by simp [WavPlayerCpp.samplesCopied]⟩
    | o :: rest, hblocks =>
      have ho := hblocks o (List.mem_cons_self _ _)
      have hc64 : c < 2 ^ 64 := by
        obtain ⟨_, hlen, hm⟩ := ho
        unfold InMemory at hm
        have hlen1 : o.length = R * c := by exact_mod_cast hlen
        have : 1 * c ≤ R * c := Nat.mul_le_mul_right c hR
        omega
      have hticks : ∀ t ∈ (o :: rest).map (fun o => (R, o)),
          t.2.length = t.1 * c ∧ t.2.length * 2 < 2 ^ 64 := by
        intro t ht
        obtain ⟨o', ho', rfl⟩ := List.mem_map.mp ht
        obtain ⟨_, hlen, hm⟩ := hblocks o' ho'
        exact ⟨by exact_mod_cast hlen, hm⟩
      obtain ⟨last1, trace, hrun, hframes, hsamples, -⟩ :=
        WavPlayerCpp.runTicks_spec_cpp samples T c rate (by omega) hbuf hmem hc64 _ 0 last
          (Nat.zero_le _) hticks
      rw [sum_uniform_ticks, Nat.zero_add] at hrun hframes hsamples
      refine ⟨_, trace, hrun, rfl, ?_, ?_⟩
      · rw [ceil_le_iff _ _ _ hR]
        simp only
        omega
      · intro h
        rw [ceil_le_iff _ _ _ hR] at h
        rw [hframes, hsamples, Nat.min_eq_right h, Nat.zero_mul, List.drop_zero]
        exact ⟨rfl, rfl⟩
  · intro audioData R c T outs hch hc htot hcur hbuf hmem hR hblocks
    obtain ⟨samples, total, cur, channels, rate⟩ := audioData
    simp only at hch htot hcur hbuf hmem ⊢
    subst hch htot hcur
    unfold InMemory at hmem
    have hT1 : T * 1 ≤ T * c := Nat.mul_le_mul_left _ hc
    match outs, hblocks with
    | [], _ =>
      refine ⟨_, [], rfl, ?_, ?_, ?_⟩
      · simp
      · simp only [List.length_nil, Nat.le_zero]
        constructor
        · intro h
          have h0 : T = 0 := by exact_mod_cast h.symm
          rw [h0]; exact Nat.div_eq_of_lt (by omega)
        · intro h
          by_contra hne
          have hT0 : T ≠ 0 := fun h0 => hne (by rw [h0]; rfl)
          have : 1 ≤ (T + R - 1) / R := (Nat.one_le_div_iff hR).mpr (by omega)
          omega
      · intro h
        have hT0 : T = 0 := by
          by_contra hne
          have : 1 ≤ (T + R - 1) / R := (Nat.one_le_div_iff hR).mpr (by omega)
          simp only [List.length_nil, Nat.le_zero] at h
          omega
        subst hT0
        exact ⟨rfl, by simp [WavPlayerExample.samplesCopied]⟩
    | o :: rest, hblocks =>
      have ho := hblocks o (List.mem_cons_self _ _)
      have hc63 : c < 2 ^ 63 := by
        obtain ⟨_, hlen, hm⟩ := ho
        unfold InMemory at hm
        have hlen1 : o.length = R * c := by exact_mod_cast hlen
        have : 1 * c ≤ R * c := Nat.mul_le_mul_right c hR
        omega
      have hticks : ∀ t ∈ (o :: rest).map (fun o => (R, o)),
          t.1 < 2 ^ 64 ∧ t.2.length = t.1 * c ∧ t.2.length * 2 < 2 ^ 64 := by
        intro t ht
        obtain ⟨o', ho', rfl⟩ := List.mem_map.mp ht
        obtain ⟨hR64, hlen, hm⟩ := hblocks o' ho'
        exact ⟨hR64, by exact_mod_cast hlen, hm⟩
      obtain ⟨trace, hrun, hframes, hsamples, -⟩ :=
        WavPlayerExample.runTicks_spec_c samples T c rate (by omega) hbuf hmem hc63 _ 0
          (Nat.zero_le _) hticks
      rw [sum_uniform_ticks, Nat.zero_add, Nat.cast_zero] at hrun hframes hsamples
      refine ⟨_, trace, hrun, rfl, ?_, ?_⟩
      · rw [ceil_le_iff _ _ _ hR]
        simp only
        constructor
        · intro h
          have : min ((o :: rest).length * R) T = T := by exact_mod_cast h
          omega
        · intro h
          rw [Nat.min_eq_right h]
      · intro h
        rw [ceil_le_iff _ _ _ hR] at h
        rw [hframes, hsamples, Nat.min_eq_right h, Nat.zero_mul, List.drop_zero]
        exact ⟨rfl, rfl⟩

/-- Witness for C2: the stereo example of three frames, ticked twice for two frames
(`ceil (3 / 2) = 2`), in both players. -/
theorem uniform_ticks_drain_after_ceil_ticks_witness :
    (∃ final trace,
        WavPlayerCpp.runTicks WavPlayerCpp.stereo
            ([[9, 9, 9, 9], [9, 9, 9, 9]].map fun o => (2, o))
          = some (final, trace)
        ∧ final.audioData.currentFrame
          = min ([[9, 9, 9, 9], [9, 9, 9, 9]].length * 2) WavPlayerCpp.stereo.audioData.totalFrames
        ∧ (final.audioData.currentFrame = WavPlayerCpp.stereo.audioData.totalFrames
            ↔ (WavPlayerCpp.stereo.audioData.totalFrames + 2 - 1) / 2
              ≤ [[9, 9, 9, 9], [9, 9, 9, 9]].length)
        ∧ ((WavPlayerCpp.stereo.audioData.totalFrames + 2 - 1) / 2
              ≤ [[9, 9, 9, 9], [9, 9, 9, 9]].length →
            (WavPlayerCpp.framesCopied WavPlayerCpp.stereo trace).sum
              = WavPlayerCpp.stereo.audioData.totalFrames
            ∧ WavPlayerCpp.samplesCopied WavPlayerCpp.stereo trace
              = WavPlayerCpp.stereo.audioData.samples.take
                  (WavPlayerCpp.stereo.audioData.totalFrames * 2)))
    ∧ (∃ final trace,
        WavPlayerExample.runTicks WavPlayerExample.stereo
            ([[9, 9, 9, 9], [9, 9, 9, 9]].map fun o => (2, o))
          = some (final, trace)
        ∧ final.currentFrame = ((min ([[9, 9, 9, 9], [9, 9, 9, 9]].length * 2) 3 : Nat) : Int)
        ∧ (final.currentFrame = (3 : Nat)
            ↔ (3 + 2 - 1) / 2 ≤ [[9, 9, 9, 9], [9, 9, 9, 9]].length)
        ∧ ((3 + 2 - 1) / 2 ≤ [[9, 9, 9, 9], [9, 9, 9, 9]].length →
            (WavPlayerExample.framesCopied WavPlayerExample.stereo trace).sum = (3 : Nat)
            ∧ WavPlayerExample.samplesCopied WavPlayerExample.stereo trace
              = WavPlayerExample.stereo.samples.take (3 * 2))) :=
  ⟨uniform_ticks_drain_after_ceil_ticks.1 WavPlayerCpp.stereo 2 2
      [[9, 9, 9, 9], [9, 9, 9, 9]] (by decide) (by decide) (by decide) (by decide) (by decide)
      (by decide) (by decide),
    uniform_ticks_drain_after_ceil_ticks.2 WavPlayerExample.stereo 2 2 3
      [[9, 9, 9, 9], [9, 9, 9, 9]] (by decide) (by decide) (by decide) (by decide) (by decide)
      (by decide) (by decide) (by decide)⟩

/-- C10: after every successful decode with a channel count `c ≥ 1` the buffer holds
`dataSize / 2` samples and `totalFrames * c ≤ dataSize / 2`, whether or not `dataSize` is
a multiple of `c * 2`; so every sequence of ticks on PortAudio's output blocks runs
without leaving an array (the run is defined), and in every state it reaches the range
`[currentFrame * c, (currentFrame + toCopy) * c)` a further tick of any `R` reads lies
inside the sample buffer.  First conjunct: the C++ player; second conjunct: the C
player. -/
theorem decoded_buffer_covers_every_tick_read :
    (∀ (audioData loaded : WavPlayerCpp.AudioData) (bytes : List Byte) (last : Nat)
        (ticks : List (Nat × List Int)),
      WavPlayerCpp.loadWAV audioData (some bytes) = some (.Loaded, loaded) →
      1 ≤ loaded.channels →
      (∀ t ∈ ticks, OutputBlock loaded.channels t.1 t.2) →
      ∃ c : Nat, loaded.channels = c
        ∧ loaded.samples.length
          = (Int.tdiv (WavPlayerCpp.headerFields (bytes.take 44)).dataSize 2).toNat
        ∧ loaded.totalFrames * c ≤ loaded.samples.length
        ∧ ∃ final trace,
          WavPlayerCpp.runTicks ⟨loaded, last⟩ ticks = some (final, trace)
          ∧ final.audioData.samples = loaded.samples
          ∧ final.audioData.channels = loaded.channels
          ∧ final.audioData.totalFrames = loaded.totalFrames
          ∧ final.audioData.currentFrame ≤ loaded.totalFrames
          ∧ ∀ R : Nat,
            (final.audioData.currentFrame
                + min R (final.audioData.totalFrames - final.audioData.currentFrame)) * c
              ≤ final.audioData.samples.length)
    ∧ (∀ (audioData loaded : WavPlayerExample.AudioData) (bytes : List Byte)
        (fresh : Nat → Byte) (ticks : List (Nat × List Int)),
      WavPlayerExample.loadWAV audioData (some bytes) fresh = some (.Loaded, loaded) →
      1 ≤ loaded.channels →
      (∀ t ∈ ticks, OutputBlock loaded.channels t.1 t.2) →
      ∃ c T : Nat, loaded.channels = c ∧ loaded.totalFrames = T
        ∧ loaded.samples.length
          = (WavPlayerExample.headerFields (bytes.take 44)).dataSize.toNat / 2
        ∧ T * c ≤ loaded.samples.length
        ∧ ∃ (final : WavPlayerExample.AudioData) (u : Nat)
            (trace : List (PaStreamCallbackResult × WavPlayerExample.AudioData × List Int)),
          WavPlayerExample.runTicks loaded ticks = some (final, trace)
          ∧ final.samples = loaded.samples
          ∧ final.channels = loaded.channels
          ∧ final.totalFrames = loaded.totalFrames
          ∧ final.currentFrame = u ∧ u ≤ T
          ∧ ∀ R : Nat, (u + min R (T - u)) * c ≤ final.samples.length) := by
  constructor
  · intro audioData loaded bytes last ticks hload hch hblocks
    obtain ⟨bytes', hfile, -, -, -, hcount, hchan, -, htotal, hcur, hlen⟩ :=
      WavPlayerCpp.loadWAV_loaded_cpp audioData loaded (some bytes) hload
    obtain rfl : bytes = bytes' := Option.some.inj hfile
    have hch' := hch
    rw [hchan] at hch'
    obtain ⟨n, k, hn, hk, hk1, hbound, hdiv⟩ := tdiv_frames _ _ hch' hcount
    have hrange := (toInt32_range (bits32 (bytes.take 44) 40)).2
    have hd : (WavPlayerCpp.headerFields (bytes.take 44)).dataSize
        = toInt32 (bits32 (bytes.take 44) 40) := rfl
    have hc16 := (toInt16_range (bits16 (bytes.take 44) 22)).2
    have hcc : (WavPlayerCpp.headerFields (bytes.take 44)).channels
        = toInt16 (bits16 (bytes.take 44) 22) := rfl
    have hn31 : n < 2 ^ 31 := by rw [hd] at hbound; omega
    have hk16 : k < 2 ^ 16 := by rw [hcc] at hk; omega
    have hnk : n / k ≤ n := Nat.div_le_self n k
    have hlen' : loaded.samples.length = n := by rw [hlen, hn, Int.toNat_ofNat]
    have htotal' : loaded.totalFrames = n / k := by
      rw [htotal, hdiv, toSizeT_natCast _ (by omega)]
    have hle : n / k * k ≤ n := Nat.div_mul_le_self n k
    have hchk : loaded.channels = k := by rw [hchan, hk]
    obtain ⟨samples, T, u, channels, rate⟩ := loaded
    simp only at hcur hlen' htotal' hchk hblocks ⊢
    subst hcur htotal' hchk
    have hticks : ∀ t ∈ ticks, t.2.length = t.1 * k ∧ t.2.length * 2 < 2 ^ 64 := by
      intro t ht
      obtain ⟨_, hl, hm⟩ := hblocks t ht
      exact ⟨by exact_mod_cast hl, hm⟩
    obtain ⟨last1, trace, hrun, -, -, -⟩ :=
      WavPlayerCpp.runTicks_spec_cpp samples (n / k) k rate (by omega) (by omega) (by omega)
        (by omega) ticks 0 last (Nat.zero_le _) hticks
    refine ⟨k, rfl, hlen, by omega, _, trace, hrun, rfl, rfl, rfl, ?_, ?_⟩
    · simp only; omega
    · intro R
      simp only
      have hF : min (0 + (ticks.map Prod.fst).sum) (n / k) ≤ n / k := Nat.min_le_right _ _
      generalize min (0 + (ticks.map Prod.fst).sum) (n / k) = F at hF ⊢
      generalize hm : min R (n / k - F) = m
      have : (F + m) * k ≤ n / k * k := Nat.mul_le_mul_right k (by omega)
      omega
  · intro audioData loaded bytes fresh ticks hload hch hblocks
    obtain ⟨bytes', hfile, -, -, -, hd0, hchan, -, htotal, hcur, hlen⟩ :=
      WavPlayerExample.loadWAV_loaded_c audioData loaded (some bytes) fresh hload
    obtain rfl : bytes = bytes' := Option.some.inj hfile
    have hch' := hch
    rw [hchan] at hch'
    have hcount : 0 ≤ Int.tdiv (WavPlayerExample.headerFields (bytes.take 44)).dataSize 2 :=
      Int.tdiv_nonneg hd0 (by decide)
    obtain ⟨n, k, hn, hk, hk1, hbound, hdiv⟩ := tdiv_frames _ _ hch' hcount
    have hrange := (toInt32_range (bits32 (bytes.take 44) 40)).2
    have hd : (WavPlayerExample.headerFields (bytes.take 44)).dataSize
        = toInt32 (bits32 (bytes.take 44) 40) := rfl
    have hc16 := (toInt16_range (bits16 (bytes.take 44) 22)).2
    have hcc : (WavPlayerExample.headerFields (bytes.take 44)).channels
        = toInt16 (bits16 (bytes.take 44) 22) := rfl
    have hn31 : n < 2 ^ 31 := by rw [hd] at hbound; omega
    have hk16 : k < 2 ^ 16 := by rw [hcc] at hk; omega
    have hnk : n / k ≤ n := Nat.div_le_self n k
    have hn' : (WavPlayerExample.headerFields (bytes.take 44)).dataSize.toNat / 2 = n := by
      rw [Int.tdiv_eq_ediv hd0 (by decide)] at hn
      omega
    have hlen' : loaded.samples.length = n := by rw [hlen, hn']
    have htotal' : loaded.totalFrames = ((n / k : Nat) : Int) := by rw [htotal, hdiv]
    have hle : n / k * k ≤ n := Nat.div_mul_le_self n k
    have hchk : loaded.channels = k := by rw [hchan, hk]
    obtain ⟨samples, T, u, channels, rate⟩ := loaded
    simp only at hcur hlen' htotal' hchk hblocks ⊢
    subst hcur htotal' hchk
    have hticks : ∀ t ∈ ticks, t.1 < 2 ^ 64 ∧ t.2.length = t.1 * k ∧ t.2.length * 2 < 2 ^ 64 := by
      intro t ht
      obtain ⟨hR, hl, hm⟩ := hblocks t ht
      exact ⟨hR, by exact_mod_cast hl, hm⟩
    obtain ⟨trace, hrun, -, -, -⟩ :=
      WavPlayerExample.runTicks_spec_c samples (n / k) k rate (by omega) (by omega) (by omega)
        (by omega) ticks 0 (Nat.zero_le _) hticks
    rw [Nat.cast_zero] at hrun
    refine ⟨k, n / k, rfl, rfl, hlen, by omega, _, _, trace, hrun, rfl, rfl, rfl, rfl, ?_, ?_⟩
    · omega
    · intro R
      simp only
      have hF : min (0 + (ticks.map Prod.fst).sum) (n / k) ≤ n / k := Nat.min_le_right _ _
      generalize min (0 + (ticks.map Prod.fst).sum) (n / k) = F at hF ⊢
      generalize hm : min R (n / k - F) = m
      have : (F + m) * k ≤ n / k * k := Nat.mul_le_mul_right k (by omega)
      omega

/-- Witness for C10: the stereo file whose data ends in the middle of a frame, decoded
and ticked for two frames and then for none, in both players. -/
theorem decoded_buffer_covers_every_tick_read_witness :
    (∃ c : Nat, (WavPlayerCpp.AudioData.mk [1, 2, 3] 1 0 2 44100).channels = c
        ∧ (WavPlayerCpp.AudioData.mk [1, 2, 3] 1 0 2 44100).samples.length
          = (Int.tdiv (WavPlayerCpp.headerFields (halfFrameFile.take 44)).dataSize 2).toNat
        ∧ (WavPlayerCpp.AudioData.mk [1, 2, 3] 1 0 2 44100).totalFrames * c
          ≤ (WavPlayerCpp.AudioData.mk [1, 2, 3] 1 0 2 44100).samples.length
        ∧ ∃ final trace,
          WavPlayerCpp.runTicks ⟨WavPlayerCpp.AudioData.mk [1, 2, 3] 1 0 2 44100, 0⟩
              [(2, [9, 9, 9, 9]), (0, [])]
            = some (final, trace)
          ∧ final.audioData.samples = (WavPlayerCpp.AudioData.mk [1, 2, 3] 1 0 2 44100).samples
          ∧ final.audioData.channels
            = (WavPlayerCpp.AudioData.mk [1, 2, 3] 1 0 2 44100).channels
          ∧ final.audioData.totalFrames
            = (WavPlayerCpp.AudioData.mk [1, 2, 3] 1 0 2 44100).totalFrames
          ∧ final.audioData.currentFrame
            ≤ (WavPlayerCpp.AudioData.mk [1, 2, 3] 1 0 2 44100).totalFrames
          ∧ ∀ R : Nat,
            (final.audioData.currentFrame
                + min R (final.audioData.totalFrames - final.audioData.currentFrame)) * c
              ≤ final.audioData.samples.length)
    ∧ (∃ c T : Nat, (WavPlayerExample.AudioData.mk [1, 2, 3] 1 0 2 44100).channels = c
        ∧ (WavPlayerExample.AudioData.mk [1, 2, 3] 1 0 2 44100).totalFrames = T
        ∧ (WavPlayerExample.AudioData.mk [1, 2, 3] 1 0 2 44100).samples.length
          = (WavPlayerExample.headerFields (halfFrameFile.take 44)).dataSize.toNat / 2
        ∧ T * c ≤ (WavPlayerExample.AudioData.mk [1, 2, 3] 1 0 2 44100).samples.length
        ∧ ∃ (final : WavPlayerExample.AudioData) (u : Nat)
            (trace : List (PaStreamCallbackResult × WavPlayerExample.AudioData × List Int)),
          WavPlayerExample.runTicks (WavPlayerExample.AudioData.mk [1, 2, 3] 1 0 2 44100)
              [(2, [9, 9, 9, 9]), (0, [])]
            = some (final, trace)
          ∧ final.samples = (WavPlayerExample.AudioData.mk [1, 2, 3] 1 0 2 44100).samples
          ∧ final.channels = (WavPlayerExample.AudioData.mk [1, 2, 3] 1 0 2 44100).channels
          ∧ final.totalFrames
            = (WavPlayerExample.AudioData.mk [1, 2, 3] 1 0 2 44100).totalFrames
          ∧ final.currentFrame = u ∧ u ≤ T
          ∧ ∀ R : Nat, (u + min R (T - u)) * c ≤ final.samples.length) :=
  ⟨decoded_buffer_covers_every_tick_read.1 WavPlayerCpp.unloaded ⟨[1, 2, 3], 1, 0, 2, 44100⟩
      halfFrameFile 0 [(2, [9, 9, 9, 9]), (0, [])] (by decide) (by decide) (by decide),
    decoded_buffer_covers_every_tick_read.2 WavPlayerExample.unloaded ⟨[1, 2, 3], 1, 0, 2, 44100⟩
      halfFrameFile (fun _ => 0) [(2, [9, 9, 9, 9]), (0, [])] (by decide) (by decide)
      (by decide)⟩
